import Mathlib

/-!
Verification of the pipeline-orchestration backend (`Backend/app` of the
repository) against its natural-language specification.

The development shallowly embeds the Python source:

* JSON values are modelled by the mutual inductive `Json`/`JList`/`JObj`
  (Python `dict`s preserve insertion order, hence association lists).
  `json.dumps(..., ensure_ascii=False)` is modelled by `Json.dumps`, and
  `json.loads` by `jsonLoads`, an executable parser.  The parser covers the
  JSON fragment actually exchanged by the backend (null / booleans / integer
  numerals / strings with the common escapes / arrays / objects); floating
  point literals and `\uXXXX` escapes are outside the model.
* Python string operations used by the source (`strip`, `rstrip`, `lower`,
  `upper`, `splitlines`, `replace`, `in`, `startswith`, `join`, slicing) are
  re-implemented over `List Char` so that every definition evaluates inside
  the kernel.
* Database rows become structures, the mutable database a `DbState` record,
  and every FastAPI handler a pure function from a `DbState` (plus the
  request and the environment events) to a new `DbState` together with the
  HTTP outcome and the outbound agent-trigger calls it performed.
* `datetime.utcnow()` is an explicit `now : Nat` parameter of each
  operation; `uuid` generation is an explicit run-id parameter.
-/

/-! ## Python string primitives -/

/-- Whitespace characters recognised by Python's `str.strip()` (ASCII part). -/
def isPyWs (c : Char) : Bool :=
  c = ' ' || c = '\t' || c = '\n' || c = '\x0d' || c = '\x0b' || c = '\x0c'

def stripLeftL (cs : List Char) : List Char := cs.dropWhile isPyWs

def stripRightL (cs : List Char) : List Char := (cs.reverse.dropWhile isPyWs).reverse

/-- Python `str.strip()`. -/
def pyStrip (s : String) : String := String.mk (stripLeftL (stripRightL s.data))

/-- Python `str.rstrip()`. -/
def pyRstrip (s : String) : String := String.mk (stripRightL s.data)

/-- Python `str.lower()` (ASCII). -/
def pyLower (s : String) : String := String.mk (s.data.map Char.toLower)

/-- Python `str.upper()` (ASCII). -/
def pyUpper (s : String) : String := String.mk (s.data.map Char.toUpper)

def startsWithL : List Char → List Char → Bool
  | [], _ => true
  | _ :: _, [] => false
  | p :: ps, c :: cs => p = c && startsWithL ps cs

/-- Python `str.startswith`. -/
def pyStartsWith (s pre : String) : Bool := startsWithL pre.data s.data

def containsL (needle : List Char) : List Char → Bool
  | [] => needle.isEmpty
  | c :: cs => startsWithL needle (c :: cs) || containsL needle cs

/-- Python `needle in s` substring containment. -/
def pyContains (s needle : String) : Bool := containsL needle.data s.data

def replaceLAux (old new : List Char) : Nat → List Char → List Char
  | 0, cs => cs
  | _ + 1, [] => []
  | fuel + 1, c :: cs =>
    if startsWithL old (c :: cs) && !old.isEmpty then
      new ++ replaceLAux old new fuel ((c :: cs).drop old.length)
    else
      c :: replaceLAux old new fuel cs

/-- Python `str.replace` (all non-overlapping occurrences, left to right). -/
def pyReplace (s old new : String) : String :=
  String.mk (replaceLAux old.data new.data (s.data.length + 1) s.data)

def splitlinesLAux : List Char → List Char → List (List Char)
  | acc, [] => if acc.isEmpty then [] else [acc.reverse]
  | acc, '\x0d' :: '\n' :: rest => acc.reverse :: splitlinesLAux [] rest
  | acc, '\x0d' :: rest => acc.reverse :: splitlinesLAux [] rest
  | acc, '\n' :: rest => acc.reverse :: splitlinesLAux [] rest
  | acc, c :: rest => splitlinesLAux (c :: acc) rest

/-- Python `str.splitlines()` for the `\n` / `\r` / `\r\n` line breaks. -/
def pySplitlines (s : String) : List String :=
  (splitlinesLAux [] s.data).map String.mk

/-- Python `sep.join(parts)`. -/
def pyJoin (sep : String) : List String → String
  | [] => ""
  | [x] => x
  | x :: xs => x ++ sep ++ pyJoin sep xs

/-- Python `s[:n]` on strings. -/
def pySliceTo (s : String) (n : Nat) : String := String.mk (s.data.take n)

/-- Python `len(s)`. -/
def pyLen (s : String) : Nat := s.data.length

/-! ## JSON values

Mutual inductives (instead of nesting `List` inside a single inductive) so
that structural recursion over values reduces inside the kernel. -/

mutual
inductive Json where
  | null : Json
  | bool (b : Bool) : Json
  | num (n : Int) : Json
  | str (s : String) : Json
  | arr (xs : JList) : Json
  | obj (fs : JObj) : Json
  deriving DecidableEq

inductive JList where
  | nil : JList
  | cons (hd : Json) (tl : JList) : JList
  deriving DecidableEq

inductive JObj where
  | nil : JObj
  | cons (k : String) (v : Json) (tl : JObj) : JObj
  deriving DecidableEq
end

def JList.ofList : List Json → JList
  | [] => .nil
  | x :: xs => .cons x (JList.ofList xs)

def JObj.ofList : List (String × Json) → JObj
  | [] => .nil
  | (k, v) :: fs => .cons k v (JObj.ofList fs)

/-- Convenience constructor mirroring a Python dict display. -/
def jobj (fs : List (String × Json)) : Json := .obj (JObj.ofList fs)

/-- Convenience constructor mirroring a Python list display. -/
def jarr (xs : List Json) : Json := .arr (JList.ofList xs)

def JObj.lookup? : JObj → String → Option Json
  | .nil, _ => none
  | .cons k v tl, key => if k = key then some v else JObj.lookup? tl key

def JObj.hasKey (o : JObj) (key : String) : Bool := (o.lookup? key).isSome

def JObj.keys : JObj → List String
  | .nil => []
  | .cons k _ tl => k :: JObj.keys tl

def JObj.append : JObj → JObj → JObj
  | .nil, o => o
  | .cons k v tl, o => .cons k v (JObj.append tl o)

/-- Drop the fields whose key is in `ks` (Python dict comprehension with
`if k not in {...}`). -/
def JObj.removeKeys : JObj → List String → JObj
  | .nil, _ => .nil
  | .cons k v tl, ks =>
    if k ∈ ks then JObj.removeKeys tl ks else .cons k v (JObj.removeKeys tl ks)

def JObj.isEmpty : JObj → Bool
  | .nil => true
  | .cons _ _ _ => false

def JObj.length : JObj → Nat
  | .nil => 0
  | .cons _ _ tl => 1 + JObj.length tl

/-- Python `dict.get(k)`: `None` (JSON null) when the key is absent. -/
def pyDictGet (o : JObj) (k : String) : Json := (o.lookup? k).getD .null

def JObj.setKey : JObj → String → Json → JObj
  | .nil, k, v => .cons k v .nil
  | .cons k' v' tl, k, v =>
    if k' = k then .cons k' v tl else .cons k' v' (JObj.setKey tl k v)

/-- Python `dict.update`: existing keys keep their position and get the new
value, new keys are appended in order. -/
def pyDictUpdate : JObj → JObj → JObj
  | base, .nil => base
  | base, .cons k v tl => pyDictUpdate (base.setKey k v) tl

/-- Python truthiness of a JSON-compatible value. -/
def pyTruthy : Json → Bool
  | .null => false
  | .bool b => b
  | .num n => n ≠ 0
  | .str s => s ≠ ""
  | .arr .nil => false
  | .arr (.cons _ _) => true
  | .obj o => !o.isEmpty

/-! ## json.dumps -/

def hexDigit (n : Nat) : Char :=
  if n < 10 then Char.ofNat (48 + n) else Char.ofNat (87 + n)

/-- Escape one character as Python's `json.dumps` with `ensure_ascii=False`
does. -/
def dumpsChar (c : Char) : List Char :=
  if c = '"' then ['\\', '"']
  else if c = '\\' then ['\\', '\\']
  else if c = '\n' then ['\\', 'n']
  else if c = '\t' then ['\\', 't']
  else if c = '\x0d' then ['\\', 'r']
  else if c = '\x08' then ['\\', 'b']
  else if c = '\x0c' then ['\\', 'f']
  else if c.toNat < 32 then
    ['\\', 'u', '0', '0', hexDigit (c.toNat / 16), hexDigit (c.toNat % 16)]
  else [c]

def dumpsString (s : String) : String :=
  "\"" ++ String.mk (s.data.flatMap dumpsChar) ++ "\""

def intToString (n : Int) : String :=
  if n < 0 then "-" ++ toString n.natAbs else toString n.natAbs

mutual
/-- Python `json.dumps(v, ensure_ascii=False)` with the default separators. -/
def Json.dumps : Json → String
  | .null => "null"
  | .bool true => "true"
  | .bool false => "false"
  | .num n => intToString n
  | .str s => dumpsString s
  | .arr xs => "[" ++ JList.dumpsInner xs ++ "]"
  | .obj fs => "\x7b" ++ JObj.dumpsInner fs ++ "\x7d"

def JList.dumpsInner : JList → String
  | .nil => ""
  | .cons x .nil => Json.dumps x
  | .cons x (.cons y tl) => Json.dumps x ++ ", " ++ JList.dumpsInner (.cons y tl)

def JObj.dumpsInner : JObj → String
  | .nil => ""
  | .cons k v .nil => dumpsString k ++ ": " ++ Json.dumps v
  | .cons k v (.cons k' v' tl) =>
    dumpsString k ++ ": " ++ Json.dumps v ++ ", " ++ JObj.dumpsInner (.cons k' v' tl)
end

/-! ## json.loads -/

def lbraceC : Char := Char.ofNat 123

def rbraceC : Char := Char.ofNat 125

def isJsonWs (c : Char) : Bool := c = ' ' || c = '\t' || c = '\n' || c = '\x0d'

def skipWs (cs : List Char) : List Char := cs.dropWhile isJsonWs

/-- Parse the body of a JSON string literal (the opening quote already
consumed).  Returns the string and the rest after the closing quote. -/
def parseStringBody : Nat → List Char → Option (String × List Char)
  | 0, _ => none
  | _ + 1, [] => none
  | fuel + 1, c :: cs =>
    if c = '"' then some ("", cs)
    else if c = '\\' then
      match cs with
      | [] => none
      | e :: cs' =>
        let dec : Option Char :=
          if e = '"' then some '"'
          else if e = '\\' then some '\\'
          else if e = '/' then some '/'
          else if e = 'n' then some '\n'
          else if e = 't' then some '\t'
          else if e = 'r' then some '\x0d'
          else if e = 'b' then some '\x08'
          else if e = 'f' then some '\x0c'
          else none
        match dec with
        | none => none
        | some d =>
          match parseStringBody fuel cs' with
          | some (s, rest) => some (String.mk (d :: s.data), rest)
          | none => none
    else if c.toNat < 32 then none
    else
      match parseStringBody fuel cs with
      | some (s, rest) => some (String.mk (c :: s.data), rest)
      | none => none

def digitsToNat (acc : Nat) : List Char → Nat
  | [] => acc
  | c :: cs => digitsToNat (acc * 10 + (c.toNat - 48)) cs

mutual
def parseVal : Nat → List Char → Option (Json × List Char)
  | 0, _ => none
  | _ + 1, [] => none
  | fuel + 1, c :: cs =>
    if c = 'n' then
      if startsWithL ['u', 'l', 'l'] cs then some (.null, cs.drop 3) else none
    else if c = 't' then
      if startsWithL ['r', 'u', 'e'] cs then some (.bool true, cs.drop 3) else none
    else if c = 'f' then
      if startsWithL ['a', 'l', 's', 'e'] cs then some (.bool false, cs.drop 4) else none
    else if c = '"' then
      match parseStringBody (fuel + 1) cs with
      | some (s, rest) => some (.str s, rest)
      | none => none
    else if c = '[' then
      let cs' := skipWs cs
      match cs' with
      | ']' :: rest => some (.arr .nil, rest)
      | _ =>
        match parseArrItems fuel cs' with
        | some (xs, rest) => some (.arr xs, rest)
        | none => none
    else if c = lbraceC then
      let cs' := skipWs cs
      match cs' with
      | d :: rest =>
        if d = rbraceC then some (.obj .nil, rest)
        else
          match parseObjItems fuel cs' with
          | some (fs, rest') => some (.obj fs, rest')
          | none => none
      | [] => none
    else if c = '-' then
      match cs with
      | d :: _ =>
        if d.isDigit then
          let ds := cs.takeWhile Char.isDigit
          let rest := cs.dropWhile Char.isDigit
          match rest with
          | e :: _ => if e = '.' || e = 'e' || e = 'E' then none
              else some (.num (-(digitsToNat 0 ds : Int)), rest)
          | [] => some (.num (-(digitsToNat 0 ds : Int)), [])
        else none
      | [] => none
    else if c.isDigit then
      let ds := (c :: cs).takeWhile Char.isDigit
      let rest := (c :: cs).dropWhile Char.isDigit
      match rest with
      | e :: _ => if e = '.' || e = 'e' || e = 'E' then none
          else some (.num (digitsToNat 0 ds : Int), rest)
      | [] => some (.num (digitsToNat 0 ds : Int), [])
    else none

def parseArrItems : Nat → List Char → Option (JList × List Char)
  | 0, _ => none
  | fuel + 1, cs =>
    match parseVal fuel cs with
    | none => none
    | some (x, rest) =>
      match skipWs rest with
      | ',' :: rest' =>
        match parseArrItems fuel (skipWs rest') with
        | some (xs, rest'') => some (.cons x xs, rest'')
        | none => none
      | ']' :: rest' => some (.cons x .nil, rest')
      | _ => none

def parseObjItems : Nat → List Char → Option (JObj × List Char)
  | 0, _ => none
  | fuel + 1, cs =>
    match cs with
    | '"' :: cs' =>
      match parseStringBody fuel cs' with
      | none => none
      | some (k, rest) =>
        match skipWs rest with
        | ':' :: rest' =>
          match parseVal fuel (skipWs rest') with
          | none => none
          | some (v, rest'') =>
            match skipWs rest'' with
            | ',' :: rest3 =>
              match parseObjItems fuel (skipWs rest3) with
              | some (fs, rest4) => some (.cons k v fs, rest4)
              | none => none
            | d :: rest3 =>
              if d = rbraceC then some (.cons k v .nil, rest3) else none
            | [] => none
        | _ => none
    | _ => none
end

/-- Python `json.loads` on the modelled fragment: `none` is a
`json.JSONDecodeError`. -/
def jsonLoads (s : String) : Option Json :=
  match parseVal (2 * s.data.length + 8) (skipWs s.data) with
  | some (j, rest) => if skipWs rest = [] then some j else none
  | none => none

/-! ## utils/mermaid.py -/

/-- Python `s[n:]`. -/
def pySliceFrom (s : String) (n : Nat) : String := String.mk (s.data.drop n)

/-- Python `s.split("\n", 1)[1]` (everything after the first newline). -/
def pyAfterFirstNewline (s : String) : String :=
  String.mk ((s.data.dropWhile (fun c => c ≠ '\n')).drop 1)

/-- `MERMAID_PREFIXES` of `utils/mermaid.py` (renamed for this file). -/
def MERMAID_STARTS : List String :=
  ["graph ", "flowchart", "sequenceDiagram", "classDiagram", "stateDiagram",
   "stateDiagram-v2", "erDiagram", "journey", "gantt", "pie", "mindmap",
   "timeline", "quadrantChart", "requirementDiagram", "gitGraph", "C4Context",
   "C4Container", "C4Component", "C4Dynamic", "C4Deployment"]

def PSEUDOCODE_HINTS : List String :=
  ["pseudocode", "pseudo_code", "algorithm", "procedimiento", "funcion",
   "function", "procedure"]

def PSEUDOCODE_MARKERS : List String :=
  ["procedure ", "function ", "entradas", "salidas", "inputs", "outputs",
   "pasos", "algoritmo"]

def _strip_code_fence (value : String) (allowed_languages : Option (List String)) : String :=
  let text := pyStrip value
  if !pyStartsWith text "```" then text
  else
    match pySplitlines text with
    | [] => text
    | line0 :: rest =>
      let first_line := pyLower (pyStrip line0)
      if !pyStartsWith first_line "```" then text
      else
        let langOk :=
          match allowed_languages with
          | none => true
          | some allowed =>
            let language := pyStrip (pySliceFrom first_line 3)
            !(language ≠ "" && language ∉ allowed)
        if !langOk then text
        else
          let content_lines :=
            if rest ≠ [] && pyStrip (rest.getLast!) = "```" then rest.dropLast else rest
          pyStrip (pyJoin "\n" content_lines)

def _looks_like_mermaid (value : String) : Bool :=
  let text := pyStrip value
  if text = "" then false
  else
    let lowered := pyLower text
    if pyStartsWith lowered "mermaid\n" then true
    else MERMAID_STARTS.any (fun p => pyStartsWith text p)

def _looks_like_pseudocode (value : String) : Bool :=
  let text := pyStrip value
  if text = "" then false
  else
    let lowered := pyLower text
    if _looks_like_mermaid text then false
    else PSEUDOCODE_MARKERS.any (fun m => pyContains lowered m)

def normalize_mermaid_code (value : String) : String :=
  let text := pyReplace (pyReplace (pyStrip value) "\\r\\n" "\n") "\\n" "\n"
  let text := _strip_code_fence text (some ["", "mermaid"])
  let text := pyStrip text
  let text :=
    if pyStartsWith (pyLower text) "mermaid\n" then pyStrip (pyAfterFirstNewline text)
    else text
  let lines := (pySplitlines text).map (fun line => pyReplace (pyRstrip line) "\t" "    ")
  pyStrip (pyJoin "\n" lines)

def normalize_pseudocode_code (value : String) : String :=
  let text := pyReplace (pyReplace (pyStrip value) "\\r\\n" "\n") "\\n" "\n"
  let text := _strip_code_fence text
    (some ["", "pseudocode", "pseudo", "text", "plain", "plaintext"])
  let lines := (pySplitlines text).map (fun line => pyReplace (pyRstrip line) "\t" "    ")
  pyStrip (pyJoin "\n" lines)

mutual
/-- `normalize_mermaid_artifact` of `utils/mermaid.py`. -/
def normalize_mermaid_artifact : Json → Json
  | .obj fs => .obj (normalizeMermaidObj fs)
  | .arr xs => .arr (normalizeMermaidList xs)
  | j => j

def normalizeMermaidList : JList → JList
  | .nil => .nil
  | .cons j rest => .cons (normalize_mermaid_artifact j) (normalizeMermaidList rest)

def normalizeMermaidObj : JObj → JObj
  | .nil => .nil
  | .cons k v rest =>
    match v with
    | .str s =>
      let key_l := pyLower k
      let mermaid_hinted := pyContains key_l "mermaid" || pyContains key_l "diagram"
      let pseudocode_hinted := PSEUDOCODE_HINTS.any (fun h => pyContains key_l h)
      let v' :=
        if mermaid_hinted || _looks_like_mermaid s then
          Json.str (normalize_mermaid_code s)
        else if pseudocode_hinted || _looks_like_pseudocode s then
          Json.str (normalize_pseudocode_code s)
        else Json.str s
      .cons k v' (normalizeMermaidObj rest)
    | other => .cons k (normalize_mermaid_artifact other) (normalizeMermaidObj rest)
end

/-! ## Data model: rows and database state -/

structure AgentRow where
  id : Nat
  name : String
  slug : String
  n8n_webhook_url : String
  order : Nat
  deriving DecidableEq

structure RunRow where
  id : String
  domain : String
  brief : String
  status : String
  current_agent_id : Option Nat
  is_waiting_for_user : Bool
  created_at : Nat
  updated_at : Nat
  deriving DecidableEq

structure ArtifactRow where
  id : Nat
  run_id : String
  artifact_type : String
  version : Nat
  content_json : String
  created_at : Nat
  deriving DecidableEq

structure StepExecutionRow where
  id : Nat
  run_id : String
  step : Nat
  agent_slug : String
  attempt : Nat
  is_feedback : Bool
  feedback_text : Option String
  status : String
  request_payload_json : Option String
  response_message : Option String
  started_at : Nat
  finished_at : Option Nat
  deriving DecidableEq

structure StepLogRow where
  id : Nat
  execution_id : Nat
  message : String
  created_at : Nat
  deriving DecidableEq

/-- The mutable database.  The `agents` table is not part of it: `main.py`
seeds it once at startup from `PIPELINE_STEPS` and nothing ever writes to it
afterwards, so it is modelled as the constant `agentsTable` below. -/
structure DbState where
  runs : List RunRow
  artifacts : List ArtifactRow
  executions : List StepExecutionRow
  logs : List StepLogRow
  next_artifact_id : Nat
  next_execution_id : Nat
  next_log_id : Nat
  deriving DecidableEq

def DbState.init : DbState :=
  { runs := [], artifacts := [], executions := [], logs := [],
    next_artifact_id := 1, next_execution_id := 1, next_log_id := 1 }

/-! ## orchestration.py: pipeline definition -/

structure PipelineStep where
  slug : String
  name : String
  order : Nat
  webhook_url : String
  artifact_type : String
  deriving DecidableEq

def PIPELINE_STEPS : List PipelineStep :=
  [⟨"requirements", "Requirements Agent", 1,
    "http://localhost:5678/webhook/brief-to-requirements", "requirements"⟩,
   ⟨"inception", "Inception Agent", 2,
    "http://localhost:5678/webhook/inception", "inception"⟩,
   ⟨"agile", "Agile Agent", 3,
    "http://localhost:5678/webhook/HU", "agile"⟩,
   ⟨"diagramacion", "Diagramacion Agent", 4,
    "http://localhost:5678/webhook/Diagramacion", "diagramacion"⟩,
   ⟨"pseudocodigo", "Pseudocodigo Agent", 5,
    "http://localhost:5678/webhook/Pseudocodigo", "pseudocodigo"⟩,
   ⟨"qa", "QA Agent", 6,
    "http://localhost:5678/webhook/QA", "qa"⟩]

def PIPELINE_SLUGS : List String := PIPELINE_STEPS.map (·.slug)

def get_pipeline_step (slug : String) : Option PipelineStep :=
  PIPELINE_STEPS.find? (·.slug = slug)

def get_pipeline_step_by_order (n : Nat) : Option PipelineStep :=
  PIPELINE_STEPS.find? (·.order = n)

def get_expected_artifact_type (agent_slug : String) : Option String :=
  (get_pipeline_step agent_slug).map (·.artifact_type)

/-- The `agents` table after the startup seeding of `main.py` (ids are
assigned by SQLite autoincrement in pipeline order). -/
def agentsTable : List AgentRow :=
  PIPELINE_STEPS.map (fun s => ⟨s.order, s.name, s.slug, s.webhook_url, s.order⟩)

def get_pipeline_agents : List AgentRow := agentsTable

def get_first_pipeline_agent : Option AgentRow := agentsTable.head?

def findAgentById (aid : Nat) : Option AgentRow := agentsTable.find? (·.id = aid)

def findAgentBySlug (slug : String) : Option AgentRow := agentsTable.find? (·.slug = slug)

/-- `get_next_pipeline_agent` of `orchestration.py`: the next pipeline slug
after `current_slug` that has an agent record. -/
def get_next_pipeline_agent (current_slug : String) : Option AgentRow :=
  if current_slug ∉ PIPELINE_SLUGS then none
  else
    let idx := PIPELINE_SLUGS.indexOf current_slug
    ((PIPELINE_SLUGS.drop (idx + 1)).filterMap findAgentBySlug).head?

/-! ## Query helpers (SQLAlchemy queries used by the routers) -/

def DbState.findRun (db : DbState) (rid : String) : Option RunRow :=
  db.runs.find? (·.id = rid)

def DbState.updateRun (db : DbState) (rid : String) (f : RunRow → RunRow) : DbState :=
  { db with runs := db.runs.map (fun r => if r.id = rid then f r else r) }

def artifactsFor (db : DbState) (rid ty : String) : List ArtifactRow :=
  db.artifacts.filter (fun a => a.run_id = rid && a.artifact_type = ty)

def runArtifacts (db : DbState) (rid : String) : List ArtifactRow :=
  db.artifacts.filter (fun a => a.run_id = rid)

/-- `ORDER BY version DESC LIMIT 1`: a version-maximal row (first such row in
table order on ties). -/
def maxByVersion (rows : List ArtifactRow) : Option ArtifactRow :=
  rows.foldl (fun acc a =>
    match acc with
    | none => some a
    | some b => if a.version > b.version then some a else some b) none

/-- `ORDER BY created_at DESC LIMIT 1`: a creation-time-maximal row (first
such row in table order on ties). -/
def maxByCreated (rows : List ArtifactRow) : Option ArtifactRow :=
  rows.foldl (fun acc a =>
    match acc with
    | none => some a
    | some b => if a.created_at > b.created_at then some a else some b) none

/-- `_get_latest_version` of `routers/chat.py` (`int(last_version or 0)`). -/
def _get_latest_version (db : DbState) (rid ty : String) : Nat :=
  ((maxByVersion (artifactsFor db rid ty)).map (·.version)).getD 0

/-- Stable sort by `created_at` descending (`ORDER BY created_at DESC`). -/
def sortByCreatedDesc (rows : List ArtifactRow) : List ArtifactRow :=
  List.insertionSort (fun a b => b.created_at ≤ a.created_at) rows

/-- Stable sort by `created_at` ascending (`items.sort(key=...created_at)`). -/
def sortByCreatedAsc (rows : List ArtifactRow) : List ArtifactRow :=
  List.insertionSort (fun a b => a.created_at ≤ b.created_at) rows

/-- The `for artifact in rows: if artifact.artifact_type in latest: continue`
scan: keep the first row of each type, in scan order. -/
def firstPerType (seen : List String) : List ArtifactRow → List ArtifactRow
  | [] => []
  | a :: rest =>
    if a.artifact_type ∈ seen then firstPerType seen rest
    else a :: firstPerType (a.artifact_type :: seen) rest

/-- `json.loads` with the `except JSONDecodeError` fallback used by
`orchestration.py`, `routers/artifacts.py` (export) and `routers/chat.py`:
undecodable text is wrapped as `{"raw_content": text}`. -/
def decodeOrRaw (text : String) : Json :=
  match jsonLoads text with
  | some j => j
  | none => jobj [("raw_content", .str text)]

/-- `get_latest_artifacts_by_type` of `orchestration.py`. -/
def get_latest_artifacts_by_type (db : DbState) (rid : String) : List (String × Json) :=
  (firstPerType [] (sortByCreatedDesc (runArtifacts db rid))).map
    (fun a => (a.artifact_type, decodeOrRaw a.content_json))

/-- `get_latest_artifact_for_type` of `orchestration.py`
(`ORDER BY created_at DESC LIMIT 1`). -/
def get_latest_artifact_for_type (db : DbState) (rid ty : String) : Option ArtifactRow :=
  maxByCreated (artifactsFor db rid ty)

/-! ## orchestration.py: context builder -/

/-- `_compact_dict`: drop the entries whose value `is None`.  A Python value
of `None` is exactly a JSON `null` here (the artifact map is built from
`json.loads` output). -/
def _compact_dict (fs : List (String × Json)) : JObj :=
  JObj.ofList (fs.filter (fun kv => kv.2 ≠ Json.null))

/-- Python `artifacts_by_type.get(t)` over the latest-artifact map: `None`
(JSON null) when absent. -/
def mapGet (m : List (String × Json)) (t : String) : Json :=
  ((m.find? (·.1 = t)).map (·.2)).getD .null

/-- `build_context_for_agent` of `orchestration.py`. -/
def build_context_for_agent (agent_slug : String) (run : RunRow)
    (artifacts_by_type : List (String × Json)) : Json :=
  let requirements := mapGet artifacts_by_type "requirements"
  let inception := mapGet artifacts_by_type "inception"
  let agile := mapGet artifacts_by_type "agile"
  let diagramacion := mapGet artifacts_by_type "diagramacion"
  let pseudocodigo := mapGet artifacts_by_type "pseudocodigo"
  if agent_slug = "requirements" then
    jobj [("domain", .str run.domain), ("brief", .str run.brief)]
  else if agent_slug = "inception" then
    .obj (_compact_dict
      [("domain", .str run.domain), ("brief", .str run.brief),
       ("requirements", requirements)])
  else if agent_slug = "agile" then
    .obj (_compact_dict [("requirements", requirements), ("inception", inception)])
  else if agent_slug = "diagramacion" then
    .obj (_compact_dict
      [("requirements", requirements), ("inception", inception), ("agile", agile)])
  else if agent_slug = "pseudocodigo" then
    .obj (_compact_dict
      [("requirements", requirements), ("agile", agile),
       ("diagramacion", diagramacion)])
  else if agent_slug = "qa" then
    .obj (_compact_dict
      [("requirements", requirements), ("inception", inception), ("agile", agile),
       ("diagramacion", diagramacion), ("pseudocodigo", pseudocodigo)])
  else
    .obj (pyDictUpdate
      (JObj.ofList [("domain", .str run.domain), ("brief", .str run.brief)])
      (JObj.ofList artifacts_by_type))

/-! ## HTTP outcomes and outbound trigger calls -/

/-- An error outcome of a handler: a raised `HTTPException` or an uncaught
exception (HTTP 500). -/
inductive HErr where
  | http (status : Nat) (detail : String) : HErr
  | uncaught (what : String) : HErr
  deriving DecidableEq

/-- One `trigger_agent` call handed to the HTTP client or to
`BackgroundTasks.add_task`. -/
structure TriggerCall where
  run_id : String
  slug : String
  url : String
  payload : Json
  deriving DecidableEq

deriving instance DecidableEq for Except

/-- Result of one handler invocation: the database afterwards, the HTTP
outcome, and the outbound agent triggers it issued. -/
structure OpOut (α : Type) where
  db : DbState
  result : Except HErr α
  triggered : List TriggerCall

/-! ## routers/runs.py -/

/-- `create_run` of `routers/runs.py`.  `body.domain`/`body.brief` carry the
pydantic `RunCreateRequest` validation (`domain` literal `super-app`, brief
length 30..20000); `run_id` stands for `generate_run_id()` and `now` for
`datetime.utcnow()`. -/
def create_run (db : DbState) (domain brief run_id : String) (now : Nat) : OpOut RunRow :=
  if ¬(domain = "super-app" ∧ 30 ≤ pyLen brief ∧ pyLen brief ≤ 20000) then
    ⟨db, .error (.http 422 "request validation failed"), []⟩
  else
    match get_first_pipeline_agent with
    | none => ⟨db, .error (.http 500 "No pipeline agents are configured"), []⟩
    | some first_agent =>
      if (db.findRun run_id).isSome then
        ⟨db, .error (.uncaught "IntegrityError: duplicate run id"), []⟩
      else
        let run : RunRow :=
          { id := run_id, domain := domain, brief := brief,
            status := "IN_PROGRESS_" ++ pyUpper first_agent.slug,
            current_agent_id := some first_agent.id,
            is_waiting_for_user := false, created_at := now, updated_at := now }
        let db' := { db with runs := db.runs ++ [run] }
        let payload := jobj
          [("run_id", .str run.id),
           ("context", build_context_for_agent first_agent.slug run []),
           ("is_feedback", .bool false), ("feedback", .str "")]
        ⟨db', .ok run, [⟨run.id, first_agent.slug, first_agent.n8n_webhook_url, payload⟩]⟩

/-- `get_run` of `routers/runs.py`. -/
def get_run (db : DbState) (run_id : String) : OpOut RunRow :=
  match db.findRun run_id with
  | none => ⟨db, .error (.http 404 "Run not found"), []⟩
  | some run => ⟨db, .ok run, []⟩

/-! ## routers/artifacts.py -/

/-- `_extract_artifact_only` (identical in `routers/artifacts.py` and
`routers/chat.py`). -/
def _extract_artifact_only (content : Json) : Json :=
  match content with
  | .obj o => match o.lookup? "artifact" with
    | some v => v
    | none => content
  | _ => content

/-- The `ArtifactCreateRequest` pydantic model (`extra="allow"`): the two
declared fields plus the extra fields. -/
structure ArtifactCreateReq where
  artifact_type : Option String
  content : Option JObj
  extra : JObj
  deriving DecidableEq

structure ArtifactResp where
  id : Nat
  run_id : String
  artifact_type : String
  version : Nat
  created_at : Nat
  content : Json
  deriving DecidableEq

/-- The resolved current agent of a run (`run.current_agent` relationship). -/
def RunRow.currentAgent (run : RunRow) : Option AgentRow :=
  run.current_agent_id.bind findAgentById

/-- `create_artifact` of `routers/artifacts.py`. -/
def create_artifact (db : DbState) (run_id : String) (body : ArtifactCreateReq)
    (now : Nat) : OpOut ArtifactResp :=
  match db.findRun run_id with
  | none => ⟨db, .error (.http 404 "Run not found"), []⟩
  | some run =>
    let artifact_type : Option String :=
      match run.currentAgent with
      | some agent =>
        match get_expected_artifact_type agent.slug with
        | some expected => some expected
        | none => body.artifact_type
      | none => body.artifact_type
    match artifact_type with
    | none => ⟨db, .error (.http 400 "artifact_type is required"), []⟩
    | some ty =>
      if ty = "" then ⟨db, .error (.http 400 "artifact_type is required"), []⟩
      else
        let next_version :=
          match maxByVersion (artifactsFor db run_id ty) with
          | some last => last.version + 1
          | none => 1
        let content_dict : Option JObj :=
          match body.content with
          | some c => some c
          | none =>
            let extra_payload := body.extra.removeKeys ["artifact_type", "content"]
            if extra_payload.isEmpty then none else some extra_payload
        match content_dict with
        | none => ⟨db, .error (.http 400 "content is required"), []⟩
        | some content =>
          let artifact : ArtifactRow :=
            { id := db.next_artifact_id, run_id := run_id, artifact_type := ty,
              version := next_version, content_json := (Json.obj content).dumps,
              created_at := now }
          let newStatus :=
            match run.currentAgent with
            | some agent => "WAITING_APPROVAL_" ++ pyUpper agent.slug
            | none => "WAITING_APPROVAL"
          let db' :=
            { (db.updateRun run_id (fun r =>
                { r with status := newStatus, is_waiting_for_user := true,
                         updated_at := now })) with
              artifacts := db.artifacts ++ [artifact],
              next_artifact_id := db.next_artifact_id + 1 }
          ⟨db', .ok ⟨artifact.id, run_id, ty, next_version, now, .obj content⟩, []⟩

/-- `get_latest_artifact` of `routers/artifacts.py`.  Note: this endpoint
calls `json.loads` without a `try`, so undecodable content raises. -/
def get_latest_artifact (db : DbState) (run_id : String)
    (artifact_type type_q : Option String) : OpOut ArtifactResp :=
  match db.findRun run_id with
  | none => ⟨db, .error (.http 404 "Run not found"), []⟩
  | some _ =>
    let resolved_type : Option String :=
      match artifact_type with
      | some t => if t ≠ "" then some t else
          (match type_q with | some u => if u ≠ "" then some u else none | none => none)
      | none =>
        match type_q with | some u => if u ≠ "" then some u else none | none => none
    match resolved_type with
    | none => ⟨db, .error (.http 400 "artifact_type query param is required"), []⟩
    | some ty =>
      match maxByCreated (artifactsFor db run_id ty) with
      | none => ⟨db, .error (.http 404 "Artifact not found"), []⟩
      | some artifact =>
        match jsonLoads artifact.content_json with
        | none => ⟨db, .error (.uncaught "json.decoder.JSONDecodeError"), []⟩
        | some content =>
          ⟨db, .ok ⟨artifact.id, artifact.run_id, artifact.artifact_type,
                    artifact.version, artifact.created_at, content⟩, []⟩

structure ArtifactExportItem where
  artifact_type : String
  version : Nat
  created_at : Nat
  artifact : Json
  deriving DecidableEq

structure RunArtifactsExport where
  run_id : String
  exported_at : Nat
  artifacts : List ArtifactExportItem
  deriving DecidableEq

/-- `export_artifacts` of `routers/artifacts.py`. -/
def export_artifacts (db : DbState) (run_id : String) (now : Nat) :
    OpOut RunArtifactsExport :=
  match db.findRun run_id with
  | none => ⟨db, .error (.http 404 "Run not found"), []⟩
  | some _ =>
    let rows := sortByCreatedDesc (runArtifacts db run_id)
    let latest := firstPerType [] rows
    let items := latest.map (fun a =>
      let content := decodeOrRaw a.content_json
      ArtifactExportItem.mk a.artifact_type a.version a.created_at
        (_extract_artifact_only content))
    let sorted := List.insertionSort
      (fun (x y : ArtifactExportItem) => x.created_at ≤ y.created_at) items
    ⟨db, .ok ⟨run_id, now, sorted⟩, []⟩

/-! ## routers/orchestrator.py -/

namespace Orchestrator

/-- `_save_artifact` of `routers/orchestrator.py`: normalizes the content
with `normalize_mermaid_artifact` before persisting it. -/
def _save_artifact (db : DbState) (run_id artifact_type : String) (content : JObj)
    (now : Nat) : DbState × ArtifactRow :=
  let normalized_content := normalizeMermaidObj content
  let next_version :=
    match maxByVersion (artifactsFor db run_id artifact_type) with
    | some last => last.version + 1
    | none => 1
  let artifact : ArtifactRow :=
    { id := db.next_artifact_id, run_id := run_id, artifact_type := artifact_type,
      version := next_version,
      content_json := (Json.obj normalized_content).dumps, created_at := now }
  ({ db with artifacts := db.artifacts ++ [artifact],
             next_artifact_id := db.next_artifact_id + 1 }, artifact)

end Orchestrator

def DbState.addLog (db : DbState) (execution_id : Nat) (message : String)
    (now : Nat) : DbState :=
  { db with logs := db.logs ++ [⟨db.next_log_id, execution_id, message, now⟩],
            next_log_id := db.next_log_id + 1 }

def DbState.updateExecution (db : DbState) (eid : Nat)
    (f : StepExecutionRow → StepExecutionRow) : DbState :=
  { db with executions := db.executions.map (fun e => if e.id = eid then f e else e) }

/-- `ORDER BY attempt DESC, started_at DESC LIMIT 1` over step executions. -/
def maxByAttempt (rows : List StepExecutionRow) : Option StepExecutionRow :=
  rows.foldl (fun acc e =>
    match acc with
    | none => some e
    | some b =>
      if e.attempt > b.attempt ∨ (e.attempt = b.attempt ∧ e.started_at > b.started_at)
      then some e else some b) none

/-- `agent_callback` of `routers/orchestrator.py`.  `body` is the JSON body
of the incoming POST. -/
def agent_callback (db : DbState) (agent_slug : String) (body : Json)
    (now : Nat) : OpOut Json :=
  match body with
  | .obj bodyObj =>
    let incoming : JObj :=
      match bodyObj.lookup? "body" with
      | some (.obj inner) => inner
      | _ => bodyObj
    let run_id_val := pyDictGet incoming "run_id"
    if ¬pyTruthy run_id_val then ⟨db, .error (.http 400 "Missing run_id"), []⟩
    else
      let runKey : Option String :=
        match run_id_val with | .str s => some s | _ => none
      match runKey.bind db.findRun with
      | none => ⟨db, .error (.http 404 "Run not found"), []⟩
      | some run =>
        match findAgentBySlug agent_slug with
        | none => ⟨db, .error (.http 404 "Agent not found"), []⟩
        | some agent =>
          let artifact_type : String :=
            match get_expected_artifact_type agent_slug with
            | some t =>
              if t ≠ "" then t else
                match incoming.lookup? "artifact_type" with
                | some (.str s) => if s ≠ "" then s else "unknown"
                | _ => "unknown"
            | none =>
              match incoming.lookup? "artifact_type" with
              | some (.str s) => if s ≠ "" then s else "unknown"
              | _ => "unknown"
          let content : JObj :=
            match incoming.lookup? "content" with
            | none | some .null => incoming.removeKeys ["run_id", "artifact_type"]
            | some (.obj c) => c
            | some other => JObj.ofList [("value", other)]
          let (db1, artifact) :=
            Orchestrator._save_artifact db run.id artifact_type content now
          let db2 :=
            match get_pipeline_step agent_slug with
            | none => db1
            | some callback_step =>
              match maxByAttempt (db1.executions.filter (fun e =>
                  e.run_id = run.id && e.step = callback_step.order &&
                  e.agent_slug = agent_slug)) with
              | none => db1
              | some execution =>
                let db1a :=
                  if execution.status ≠ "COMPLETED" then
                    db1.updateExecution execution.id
                      (fun e => { e with status := "ARTIFACT_RECEIVED" })
                  else db1
                db1a.addLog execution.id
                  ("Callback recibido para " ++ agent_slug ++ "; artefacto " ++
                   artifact_type ++ " v" ++ toString artifact.version ++ " almacenado.")
                  now
          let db3 := db2.updateRun run.id (fun r =>
            { r with current_agent_id := some agent.id,
                     status := "WAITING_APPROVAL_" ++ pyUpper agent.slug,
                     is_waiting_for_user := true, updated_at := now })
          ⟨db3, .ok (jobj [("status", .str "ok"),
                 ("message", .str "Artifact received, waiting for user approval")]), []⟩
  | _ => ⟨db, .error (.uncaught "AttributeError: .get on a non-dict body"), []⟩

/-- `approve_run` of `routers/orchestrator.py`. -/
def approve_run (db : DbState) (run_id : String) (now : Nat) : OpOut RunRow :=
  match db.findRun run_id with
  | none => ⟨db, .error (.http 404 "Run not found"), []⟩
  | some run =>
    if ¬run.is_waiting_for_user then
      ⟨db, .error (.http 400 "Run is not waiting for approval"), []⟩
    else
      match run.currentAgent with
      | none => ⟨db, .error (.http 500 "Current agent not set"), []⟩
      | some current_agent =>
        match get_next_pipeline_agent current_agent.slug with
        | none =>
          let upd := fun (r : RunRow) =>
            { r with current_agent_id := none, is_waiting_for_user := false,
                     status := "COMPLETED", updated_at := now }
          ⟨db.updateRun run_id upd, .ok (upd run), []⟩
        | some next_agent =>
          let artifacts := get_latest_artifacts_by_type db run.id
          let context := build_context_for_agent next_agent.slug run artifacts
          let payload := jobj
            [("run_id", .str run.id), ("context", context),
             ("is_feedback", .bool false), ("feedback", .str "")]
          let upd := fun (r : RunRow) =>
            { r with current_agent_id := some next_agent.id,
                     is_waiting_for_user := false,
                     status := "IN_PROGRESS_" ++ pyUpper next_agent.slug,
                     updated_at := now }
          ⟨db.updateRun run_id upd, .ok (upd run),
           [⟨run.id, next_agent.slug, next_agent.n8n_webhook_url, payload⟩]⟩

/-- `reject_run` of `routers/orchestrator.py`.  `feedback` carries the
pydantic `RejectRunRequest` validation (length 3..10000). -/
def reject_run (db : DbState) (run_id feedback : String) (now : Nat) : OpOut RunRow :=
  if ¬(3 ≤ pyLen feedback ∧ pyLen feedback ≤ 10000) then
    ⟨db, .error (.http 422 "request validation failed"), []⟩
  else
    match db.findRun run_id with
    | none => ⟨db, .error (.http 404 "Run not found"), []⟩
    | some run =>
      if ¬run.is_waiting_for_user then
        ⟨db, .error (.http 400 "Run is not waiting for approval"), []⟩
      else
        match run.currentAgent with
        | none => ⟨db, .error (.http 500 "Current agent not set"), []⟩
        | some current_agent =>
          let artifact_type :=
            (get_expected_artifact_type current_agent.slug).getD "unknown"
          match get_latest_artifact_for_type db run.id artifact_type with
          | none => ⟨db, .error (.http 404 "No artifact found to retry from"), []⟩
          | some latest_artifact =>
            let context := decodeOrRaw latest_artifact.content_json
            let payload := jobj
              [("run_id", .str run.id), ("context", context),
               ("is_feedback", .bool true), ("feedback", .str feedback)]
            let upd := fun (r : RunRow) =>
              { r with is_waiting_for_user := false,
                       status := "RETRYING_" ++ pyUpper current_agent.slug,
                       updated_at := now }
            ⟨db.updateRun run_id upd, .ok (upd run),
             [⟨run.id, current_agent.slug, current_agent.n8n_webhook_url, payload⟩]⟩

/-! ## routers/chat.py -/

namespace Chat

/-- `_safe_json_loads` of `routers/chat.py`. -/
def _safe_json_loads (text : String) : Json := decodeOrRaw text

/-- `_save_artifact` of `routers/chat.py`: persists the content verbatim
(no normalization), with version `latest + 1`. -/
def _save_artifact (db : DbState) (run_id artifact_type : String) (content : Json)
    (now : Nat) : DbState × ArtifactRow :=
  let next_version := _get_latest_version db run_id artifact_type + 1
  let artifact : ArtifactRow :=
    { id := db.next_artifact_id, run_id := run_id, artifact_type := artifact_type,
      version := next_version, content_json := content.dumps, created_at := now }
  ({ db with artifacts := db.artifacts ++ [artifact],
             next_artifact_id := db.next_artifact_id + 1 }, artifact)

/-- `_extract_artifact_from_trigger_response` of `routers/chat.py`. -/
def _extract_artifact_from_trigger_response (response_data : Option Json) : Option Json :=
  match response_data with
  | none => none
  | some rd =>
    if ¬pyTruthy rd then none
    else
      match rd with
      | .obj rdObj =>
        let body0 := pyDictGet rdObj "body"
        let body :=
          match body0 with
          | .arr (.cons first _) =>
            (match first with
             | .obj firstObj =>
               (match firstObj.lookup? "json" with
                | some (.obj innerObj) => Json.obj innerObj
                | _ => first)
             | _ => body0)
          | _ => body0
        match body with
        | .obj bodyObj =>
          if bodyObj.hasKey "artifact" then some (.obj bodyObj)
          else
            match bodyObj.lookup? "json" with
            | some (.obj nested) =>
              if nested.hasKey "artifact" then some (.obj nested) else none
            | _ => none
        | _ => none
      | _ => none

/-- `_build_agent_message` of `routers/chat.py`. -/
def _build_agent_message (step : Nat) (artifact : ArtifactRow) (content : Json) : String :=
  let step_name :=
    match get_pipeline_step_by_order step with
    | some sd => sd.name
    | none => "Step " ++ toString step
  let summary := step_name ++ " completado. Artefacto v" ++
    toString artifact.version ++ " listo para revision."
  match content with
  | .obj contentObj =>
    let justification := pyDictGet contentObj "justification"
    match justification with
    | .str js =>
      if pyStrip js ≠ "" then
        let snippet := pyReplace (pyStrip js) "\n" " "
        summary ++ "\n\n" ++ pySliceTo snippet 500
      else
        match contentObj.lookup? "artifact" with
        | some (.obj sec) =>
          if ¬sec.isEmpty then
            summary ++ "\n\nSecciones: " ++ pyJoin ", " (sec.keys.take 8) ++ "."
          else summary
        | _ => summary
    | _ =>
      match contentObj.lookup? "artifact" with
      | some (.obj sec) =>
        if ¬sec.isEmpty then
          summary ++ "\n\nSecciones: " ++ pyJoin ", " (sec.keys.take 8) ++ "."
        else summary
      | _ => summary
  | _ => summary

/-- `_wait_for_new_artifact` of `routers/chat.py`, modelled over the
successive snapshots of the artifact table seen by the polling loop: one
snapshot per `while` iteration; the list being exhausted is the deadline
elapsing.  Returns the first version-maximal `(run, type)` row whose version
strictly exceeds `min_version`. -/
def _wait_for_new_artifact (run_id artifact_type : String) (min_version : Nat) :
    List (List ArtifactRow) → Option ArtifactRow
  | [] => none
  | view :: rest =>
    match maxByVersion (view.filter (fun a =>
        a.run_id = run_id && a.artifact_type = artifact_type)) with
    | some candidate =>
      if candidate.version > min_version then some candidate
      else _wait_for_new_artifact run_id artifact_type min_version rest
    | none => _wait_for_new_artifact run_id artifact_type min_version rest

/-- `_get_or_create_run` of `routers/chat.py`. -/
def _get_or_create_run (db : DbState) (run_id initial_context : String) (now : Nat) :
    Except HErr (DbState × RunRow) :=
  match db.findRun run_id with
  | some run => .ok (db, run)
  | none =>
    if initial_context = "" then .error (.http 404 "Run not found for this uuid")
    else
      let run : RunRow :=
        { id := run_id, domain := "super-app", brief := initial_context,
          status := "CREATED", current_agent_id := none,
          is_waiting_for_user := false, created_at := now, updated_at := now }
      .ok ({ db with runs := db.runs ++ [run] }, run)

/-- The `PostStepRequest` body of `POST /api/chat/step`. -/
structure PostStepReq where
  step : Nat
  uuid : String
  context : String
  is_feedback : Bool
  deriving DecidableEq

/-- Environment events of one `post_step` invocation: the outcome of the
`trigger_agent` HTTP call, the at-most-one concurrent agent callback that
lands while the handler sleeps in the polling loop (slug and request body),
and whether the per-request deadline had already elapsed before the trigger
(`request_deadline - time.monotonic() <= 0`). -/
structure PostStepEnv where
  trigger : Except String Json
  duringWait : Option (String × Json)
  preDeadlineElapsed : Bool
  now : Nat

/-- Maximum previous attempt for `(run, step)` (`func.max` returning NULL
becomes 0). -/
def previousAttempt (db : DbState) (run_id : String) (step : Nat) : Nat :=
  (db.executions.filter (fun e => e.run_id = run_id && e.step = step)).foldl
    (fun acc e => max acc e.attempt) 0

/-- The polling phase of `post_step`: the at-most-one concurrent callback of
the environment lands (the real writer, `agent_callback`, applied to the
session state), and the poll loop observes the artifact-table snapshots
before and after it.  Returns the state afterwards and the artifact the wait
found, if any. -/
def post_step_wait (db7 : DbState) (rid ty : String) (baseline : Nat)
    (env : PostStepEnv) : DbState × Option ArtifactRow :=
  let db8 :=
    match env.duringWait with
    | none => db7
    | some (cbSlug, cbBody) => (agent_callback db7 cbSlug cbBody env.now).db
  let views :=
    match env.duringWait with
    | none => [db7.artifacts]
    | some _ => [db7.artifacts, db8.artifacts]
  (db8, _wait_for_new_artifact rid ty baseline views)

/-- The synchronous-fallback phase of `post_step`: when the wait produced
nothing, extract an embedded result from the trigger response and persist it
via the chat `_save_artifact` (no normalization), logging the fallback. -/
def post_step_fallback (db8 : DbState) (rid ty : String) (execution_id : Nat)
    (waited : Option ArtifactRow) (trigger_response : Json) (now : Nat) :
    DbState × Option ArtifactRow :=
  match waited with
  | some a => (db8, some a)
  | none =>
    match _extract_artifact_from_trigger_response (some trigger_response) with
    | some fallback_content =>
      let (dbF, a) := _save_artifact db8 rid ty fallback_content now
      (dbF.addLog execution_id
        "No llego callback a tiempo; se persiste artefacto desde respuesta directa del webhook."
        now, some a)
    | none => (db8, none)

/-- The tail of `post_step` after a successful trigger: wait, fall back, and
settle the run and execution statuses. -/
def post_step_awaiting (db7 : DbState) (run : RunRow) (req : PostStepReq)
    (step_def : PipelineStep) (execution_id : Nat) (baseline_version : Nat)
    (trigger_response : Json) (call : TriggerCall) (env : PostStepEnv) :
    OpOut String :=
  let (db8, waited) := post_step_wait db7 run.id step_def.artifact_type
    baseline_version env
  let (db9, artifact?) := post_step_fallback db8 run.id step_def.artifact_type
    execution_id waited trigger_response env.now
  match artifact? with
  | none =>
    let timeout_message := step_def.name ++
      ": sigue en procesamiento. Intenta consultar logs y artifacts en unos segundos."
    let db10 := (db9.updateExecution execution_id (fun e =>
      { e with status := "TIMEOUT", response_message := some timeout_message,
               finished_at := some env.now })).updateRun run.id (fun r =>
      { r with status := "TIMEOUT_STEP_" ++ toString req.step,
               updated_at := env.now })
    ⟨db10.addLog execution_id timeout_message env.now, .ok timeout_message, [call]⟩
  | some artifact =>
    let parsed_content := _safe_json_loads artifact.content_json
    let message := _build_agent_message req.step artifact parsed_content
    let db10 := (db9.updateExecution execution_id (fun e =>
      { e with status := "COMPLETED", response_message := some message,
               finished_at := some env.now })).updateRun run.id (fun r =>
      { r with status := "WAITING_APPROVAL_STEP_" ++ toString req.step,
               is_waiting_for_user := true, updated_at := env.now })
    let db11 := db10.addLog execution_id
      ("Artefacto recibido y guardado como " ++ step_def.artifact_type ++
       " v" ++ toString artifact.version ++ ".") env.now
    ⟨db11, .ok message, [call]⟩

/-- The part of `post_step` of `routers/chat.py` that runs once the request
has been validated, the run resolved (`run`, already holding any step-1 brief
update, found in `db2`) and the outbound context composed: it opens the
execution, records the baseline artifact version, triggers the agent, waits
for a new artifact, falls back to the embedded trigger response, and settles
the run and execution statuses. -/
def post_step_go (db2 : DbState) (run : RunRow) (req : PostStepReq)
    (step_def : PipelineStep) (feedback_text : String) (context_payload : Json)
    (env : PostStepEnv) : OpOut String :=
  let payload := jobj
    [("run_id", .str run.id), ("context", context_payload),
     ("is_feedback", .bool req.is_feedback), ("feedback", .str feedback_text)]
  let execution_id := db2.next_execution_id
  let execution : StepExecutionRow :=
    { id := execution_id, run_id := run.id, step := req.step,
      agent_slug := step_def.slug,
      attempt := previousAttempt db2 run.id req.step + 1,
      is_feedback := req.is_feedback,
      feedback_text := if req.is_feedback then some feedback_text else none,
      status := "STARTED", request_payload_json := some payload.dumps,
      response_message := none, started_at := env.now, finished_at := none }
  let db3 := { db2 with executions := db2.executions ++ [execution],
                        next_execution_id := db2.next_execution_id + 1 }
  let db4 := db3.addLog execution_id
    ("Solicitud recibida para step " ++ toString req.step ++
     " (" ++ step_def.slug ++ ").") env.now
  let baseline_version := _get_latest_version db4 run.id step_def.artifact_type
  let db5 := db4.addLog execution_id
    ("Enviando payload al webhook " ++ step_def.webhook_url ++
     " (timeout total 90s).") env.now
  let db6 := db5.updateRun run.id (fun r =>
    { r with status := "IN_PROGRESS_STEP_" ++ toString req.step,
             current_agent_id := none, is_waiting_for_user := false,
             updated_at := env.now })
  if env.preDeadlineElapsed then
    let timeout_message := step_def.name ++
      ": tiempo de espera agotado antes de ejecutar el webhook."
    let db7 := (db6.updateExecution execution_id (fun e =>
      { e with status := "TIMEOUT", response_message := some timeout_message,
               finished_at := some env.now })).updateRun run.id (fun r =>
      { r with status := "TIMEOUT_STEP_" ++ toString req.step,
               updated_at := env.now })
    ⟨db7.addLog execution_id timeout_message env.now, .ok timeout_message, []⟩
  else
    let call : TriggerCall :=
      ⟨run.id, step_def.slug, step_def.webhook_url, payload⟩
    match env.trigger with
    | .error exc =>
      let error_message := "Error ejecutando " ++ step_def.name ++ ": " ++
        pySliceTo exc 350
      let db7 := (db6.updateExecution execution_id (fun e =>
        { e with status := "ERROR", finished_at := some env.now,
                 response_message := some error_message })).updateRun run.id
        (fun r => { r with status := "ERROR_STEP_" ++ toString req.step,
                           updated_at := env.now })
      ⟨db7.addLog execution_id error_message env.now, .ok error_message, [call]⟩
    | .ok trigger_response =>
      let db7 := (db6.updateExecution execution_id (fun e =>
        { e with status := "WAITING_RESULT" })).addLog execution_id
        "Webhook ejecutado. Esperando artefacto final." env.now
      post_step_awaiting db7 run req step_def execution_id baseline_version
        trigger_response call env

/-- `post_step` of `routers/chat.py`. -/
def post_step (db : DbState) (req : PostStepReq) (env : PostStepEnv) : OpOut String :=
  if ¬(1 ≤ req.step ∧ req.step ≤ 6 ∧ 1 ≤ pyLen req.uuid ∧ pyLen req.uuid ≤ 128) then
    ⟨db, .error (.http 422 "request validation failed"), []⟩
  else
    match get_pipeline_step_by_order req.step with
    | none => ⟨db, .error (.http 400 "Invalid step"), []⟩
    | some step_def =>
      let initial_context :=
        if req.step = 1 ∧ ¬req.is_feedback then pyStrip req.context else ""
      match _get_or_create_run db req.uuid initial_context env.now with
      | .error e => ⟨db, .error e, []⟩
      | .ok (db1, run0) =>
        let (db2, run) :=
          if req.step = 1 ∧ ¬req.is_feedback ∧ pyStrip req.context ≠ "" then
            (db1.updateRun run0.id (fun r => { r with brief := pyStrip req.context }),
             { run0 with brief := pyStrip req.context })
          else (db1, run0)
        let feedback_text :=
          if req.is_feedback then pyStrip req.context else ""
        let contextOut : Except HErr Json :=
          if req.is_feedback then
            if feedback_text = "" then
              .error (.http 400 "Feedback is required when is_feedback=true")
            else
              match maxByVersion (artifactsFor db2 run.id step_def.artifact_type) with
              | none => .error (.http 400 "No artifact found to apply feedback")
              | some previous => .ok (_safe_json_loads previous.content_json)
          else if req.step = 1 then
            if pyStrip req.context = "" then
              .error (.http 400 "Context is required for step 1")
            else .ok (.str (pyStrip req.context))
          else
            .ok (build_context_for_agent step_def.slug run
              (get_latest_artifacts_by_type db2 run.id))
        match contextOut with
        | .error e => ⟨db2, .error e, []⟩
        | .ok context_payload =>
          post_step_go db2 run req step_def feedback_text context_payload env

end Chat

/-! ## Public operations and reachable states -/

/-- One invocation of a public mutating endpoint, together with its
environment (timestamps, generated ids, external HTTP outcomes). -/
inductive Op where
  | opCreateRun (domain brief run_id : String) (now : Nat) : Op
  | opAgentCallback (agent_slug : String) (body : Json) (now : Nat) : Op
  | opCreateArtifact (run_id : String) (body : ArtifactCreateReq) (now : Nat) : Op
  | opApprove (run_id : String) (now : Nat) : Op
  | opReject (run_id feedback : String) (now : Nat) : Op
  | opPostStep (req : Chat.PostStepReq) (env : Chat.PostStepEnv) : Op

/-- The database after one endpoint invocation. -/
def applyOp (db : DbState) : Op → DbState
  | .opCreateRun domain brief run_id now => (create_run db domain brief run_id now).db
  | .opAgentCallback slug body now => (agent_callback db slug body now).db
  | .opCreateArtifact run_id body now => (create_artifact db run_id body now).db
  | .opApprove run_id now => (approve_run db run_id now).db
  | .opReject run_id feedback now => (reject_run db run_id feedback now).db
  | .opPostStep req env => (Chat.post_step db req env).db

/-- Database states reachable from the empty database through the public
endpoints. -/
inductive Reachable : DbState → Prop
  | init : Reachable DbState.init
  | step (db : DbState) (op : Op) : Reachable db → Reachable (applyOp db op)

def briefB : String := "a brief long enough to pass validation"

def dbA : DbState := applyOp DbState.init (.opCreateRun "super-app" briefB "r1" 0)

def dbB : DbState := applyOp dbA
  (.opAgentCallback "requirements"
    (jobj [("run_id", .str "r1"), ("content", jobj [("x", .num 1)])]) 1)

def dbC : DbState := applyOp dbB (.opReject "r1" "fix X please" 2)

def envSyncFallback : Chat.PostStepEnv :=
  { trigger := .ok (jobj [("status_code", .num 200),
      ("body", jobj [("artifact", jobj [("x", .num 1)]),
                     ("justification", .str "ok")])]),
    duringWait := none, preDeadlineElapsed := false, now := 3 }

def dbD : DbState := applyOp DbState.init
  (.opPostStep ⟨1, "r9", "hola mundo", false⟩ envSyncFallback)

/-! ## Concrete scenario rows and soundness predicates used by the
claim theorems and witnesses -/

/-- A callback content exercising the normalization: a mermaid-hinted key
with a fenced diagram (and a tab), a nested list of dicts with a
pseudocode-hinted key holding escaped newlines, and an ordinary string. -/
def mermaidContent : JObj := JObj.ofList
  [("diagram", .str "```mermaid\ngraph TD\n\tA-->B\n```"),
   ("steps", jarr [jobj [("pseudocode", .str "funcion f\\nentradas: x\t")]]),
   ("note", .str "hola")]

def runB : RunRow :=
  ⟨"r1", "super-app", briefB, "WAITING_APPROVAL_REQUIREMENTS", some 1, true, 0, 1⟩

def laB : ArtifactRow := ⟨1, "r1", "requirements", 1, "\x7b\"x\": 1\x7d", 1⟩

def agReq : AgentRow :=
  ⟨1, "Requirements Agent", "requirements",
   "http://localhost:5678/webhook/brief-to-requirements", 1⟩

def Json.objHasKey : Json → String → Bool
  | .obj o, k => o.hasKey k
  | _, _ => false

def Json.objLookup : Json → String → Option Json
  | .obj o, k => o.lookup? k
  | _, _ => none

def runW : RunRow := ⟨"r", "super-app", "b", "X", none, false, 0, 0⟩

def mapW : List (String × Json) := [("requirements", jobj [("a", .num 1)])]

instance : IsTotal ArtifactRow (fun a b => b.created_at ≤ a.created_at) :=
  ⟨fun a b => Nat.le_total b.created_at a.created_at⟩

instance : IsTrans ArtifactRow (fun a b => b.created_at ≤ a.created_at) :=
  ⟨fun _ _ _ h1 h2 => Nat.le_trans h2 h1⟩

def dbX : DbState := applyOp dbB
  (.opAgentCallback "requirements"
    (jobj [("run_id", .str "r1"), ("content", jobj [("y", .num 2)])]) 0)

def dbY : DbState := applyOp dbB
  (.opAgentCallback "requirements"
    (jobj [("run_id", .str "r1"), ("content", jobj [("y", .num 2)])]) 5)

def runU : RunRow :=
  ⟨"ru", "super-app", briefB, "WAITING_APPROVAL_REQUIREMENTS", some 1, true, 0, 0⟩

/-- A database holding a stored artifact whose `content_json` is not
decodable as JSON (as contemplated by the spec for malformed stored
content). -/
def dbU : DbState :=
  { runs := [runU],
    artifacts := [⟨1, "ru", "requirements", 1, "not json", 3⟩],
    executions := [], logs := [],
    next_artifact_id := 2, next_execution_id := 1, next_log_id := 1 }

def DbState.findExecution (db : DbState) (eid : Nat) : Option StepExecutionRow :=
  db.executions.find? (·.id = eid)

def bodyObjB : JObj :=
  JObj.ofList [("run_id", .str "r1"), ("content", jobj [("x", .num 1)])]

def contentB : JObj := JObj.ofList [("x", .num 1)]

def runA : RunRow :=
  ⟨"r1", "super-app", briefB, "IN_PROGRESS_REQUIREMENTS", some 1, false, 0, 0⟩

def stepReq : PipelineStep :=
  ⟨"requirements", "Requirements Agent", 1,
   "http://localhost:5678/webhook/brief-to-requirements", "requirements"⟩

def runS : RunRow := ⟨"rw1", "super-app", "briefy", "IN_PROGRESS_STEP_1", none, false, 0, 0⟩

def execS : StepExecutionRow :=
  ⟨1, "rw1", 1, "requirements", 1, false, none, "WAITING_RESULT", none, none, 0, none⟩

def db7W : DbState :=
  ⟨[runS], [], [execS], [], 1, 2, 1⟩

def respW : Json := jobj [("body", jobj [("artifact", jobj [("x", .num 1)])])]

def envW : Chat.PostStepEnv :=
  { trigger := .ok respW, duringWait := none, preDeadlineElapsed := false, now := 4 }

def artW : ArtifactRow :=
  ⟨1, "rw1", "requirements", 1, (jobj [("artifact", jobj [("x", .num 1)])]).dumps, 4⟩

def db9W : DbState :=
  ⟨[runS], [artW], [execS],
   [⟨1, 1, "No llego callback a tiempo; se persiste artefacto desde respuesta directa del webhook.", 4⟩],
   2, 2, 2⟩

def callW : TriggerCall :=
  ⟨"rw1", "requirements", "http://localhost:5678/webhook/brief-to-requirements", jobj []⟩

def reqW : Chat.PostStepReq := ⟨1, "rw1", "hola", false⟩

/-- One-step protection of the weak waiting invariant: every run waiting in
`db'` was already waiting in `db` (same id) or has an artifact in `db'`. -/
def WaitingOK (db db' : DbState) : Prop :=
  ∀ r' ∈ db'.runs, r'.is_waiting_for_user = true →
    (∃ r ∈ db.runs, r.id = r'.id ∧ r.is_waiting_for_user = true) ∨
    (∃ a ∈ db'.artifacts, a.run_id = r'.id)

/-- One-step soundness: waiting protection plus artifact monotonicity. -/
def StepOK (db db' : DbState) : Prop :=
  WaitingOK db db' ∧ ∀ a ∈ db.artifacts, a ∈ db'.artifacts

def runB1 : RunRow :=
  { id := "r1", domain := "super-app", brief := briefB,
    status := "WAITING_APPROVAL_REQUIREMENTS",
    current_agent_id := some 1, is_waiting_for_user := true,
    created_at := 0, updated_at := 1 }

def extractedW : Json := jobj [("artifact", jobj [("x", .num 1)])]

/-! ## General helper lemmas -/

def exceptIsOk {α : Type} : Except HErr α → Bool
  | .ok _ => true
  | .error _ => false

theorem findRun_id (db : DbState) (rid : String) (run : RunRow)
    (h : db.findRun rid = some run) : run.id = rid := by
  have := List.find?_some h
  simpa using this

theorem findRun_updateRun_self (db : DbState) (rid : String) (f : RunRow → RunRow)
    (hf : ∀ r, (f r).id = r.id) :
    (db.updateRun rid f).findRun rid = (db.findRun rid).map f := by
  show (db.runs.map _).find? _ = (db.runs.find? _).map f
  induction db.runs with
  | nil => simp
  | cons r l ih =>
    by_cases h : r.id = rid
    · simp [h, List.find?, hf]
    · simp only [List.map_cons, if_neg h, List.find?]
      have : ((r.id = rid : Bool)) = false := by simpa using h
      simp [this, ih]

/-! ## Claim C9 — InvalidState on approve/reject without pending decision -/

/-- C9: for every run whose `awaiting_user_decision` (`is_waiting_for_user`)
flag is false, `approve` and `reject` fail synchronously with the
InvalidState error (HTTP 400 "Run is not waiting for approval") and perform
no mutation at all: the database (runs, artifacts, executions, logs) is
returned unchanged and no agent trigger is issued. -/
theorem c9_invalid_state_no_mutation (db : DbState) (run_id feedback : String)
    (now : Nat)
    (hfound : (db.findRun run_id).map (·.is_waiting_for_user) = some false)
    (hlen : 3 ≤ pyLen feedback ∧ pyLen feedback ≤ 10000) :
    approve_run db run_id now =
      ⟨db, .error (.http 400 "Run is not waiting for approval"), []⟩ ∧
    reject_run db run_id feedback now =
      ⟨db, .error (.http 400 "Run is not waiting for approval"), []⟩ := by
  obtain ⟨run, hrun, hw⟩ :
      ∃ run, db.findRun run_id = some run ∧ run.is_waiting_for_user = false := by
    cases h : db.findRun run_id with
    | none => rw [h] at hfound; simp at hfound
    | some r =>
      refine ⟨r, rfl, ?_⟩
      rw [h] at hfound
      simpa using hfound
  constructor
  · simp [approve_run, hrun, hw]
  · have hv : ¬¬(3 ≤ pyLen feedback ∧ pyLen feedback ≤ 10000) := not_not_intro hlen
    simp only [reject_run, if_neg hv, hrun]
    simp [hw]

/-- Witness for C9 at the concrete state `dbA` (a freshly created run, not
awaiting a decision). -/
theorem c9_invalid_state_no_mutation_witness :
    approve_run dbA "r1" 7 =
      ⟨dbA, .error (.http 400 "Run is not waiting for approval"), []⟩ ∧
    reject_run dbA "r1" "fix me" 7 =
      ⟨dbA, .error (.http 400 "Run is not waiting for approval"), []⟩ :=
  c9_invalid_state_no_mutation dbA "r1" "fix me" 7 (by decide) (by decide)

/-! ## Claim C10 — normalization on the callback path only -/

/-- C10: artifacts persisted through the agent-callback path are rewritten by
`normalize_mermaid_artifact` before being stored (recursively through nested
dicts and lists: code fences stripped, escaped newline sequences replaced,
tabs expanded, surrounding whitespace trimmed), while the synchronous-fallback
path of the chat step endpoint stores the extracted content verbatim, so the
stored bytes differ between the two paths for such content. -/
theorem c10_normalization_paths :
    (∀ (db : DbState) (rid ty : String) (c : JObj) (now : Nat),
      (Orchestrator._save_artifact db rid ty c now).2.content_json =
        (Json.obj (normalizeMermaidObj c)).dumps ∧
      (Orchestrator._save_artifact db rid ty c now).1.artifacts =
        db.artifacts ++ [(Orchestrator._save_artifact db rid ty c now).2]) ∧
    (∀ (db : DbState) (rid ty : String) (c : Json) (now : Nat),
      (Chat._save_artifact db rid ty c now).2.content_json = c.dumps ∧
      (Chat._save_artifact db rid ty c now).1.artifacts =
        db.artifacts ++ [(Chat._save_artifact db rid ty c now).2]) ∧
    normalizeMermaidObj mermaidContent = JObj.ofList
      [("diagram", .str "graph TD\n    A-->B"),
       ("steps", jarr [jobj [("pseudocode", .str "funcion f\nentradas: x")]]),
       ("note", .str "hola")] ∧
    normalizeMermaidObj mermaidContent ≠ mermaidContent ∧
    (Orchestrator._save_artifact DbState.init "r" "diagramacion" mermaidContent 5).2.content_json ≠
      (Chat._save_artifact DbState.init "r" "diagramacion" (Json.obj mermaidContent) 5).2.content_json := by
  refine ⟨fun db rid ty c now => ⟨rfl, rfl⟩, fun db rid ty c now => ⟨rfl, rfl⟩,
    by decide, by decide, by decide⟩

/-! ## Claim C6 — start transition -/

/-- Counterexample to C6 as stated: creating a run succeeds (the run starts
in `IN_PROGRESS_REQUIREMENTS`) but no Execution row whatsoever is opened —
the executions table stays empty, refuting "a new Execution with attempt
number 1 is opened for that step". -/
theorem c6_start_transition_counterexample :
    exceptIsOk (create_run DbState.init "super-app" briefB "r1" 0).result = true ∧
    ((create_run DbState.init "super-app" briefB "r1" 0).db.findRun "r1").map (·.status) =
      some "IN_PROGRESS_REQUIREMENTS" ∧
    (create_run DbState.init "super-app" briefB "r1" 0).db.executions = [] := by
  decide

/-- C6 (amended): when a run is created from a valid client brief it is
persisted directly in `IN_PROGRESS_REQUIREMENTS` (the first step), with the
first agent as current position and `awaiting_user_decision` false; the
Context Builder is invoked with the empty prior-artifact map (yielding just
the domain and brief) and the agent gateway is triggered for the first step
with that payload.  No Execution row is opened at creation time — the
attempt-1 Execution for step 1 is only opened later, by the chat step
endpoint. -/
theorem c6_start_transition_amended (db : DbState) (brief rid : String) (now : Nat)
    (hb : 30 ≤ pyLen brief ∧ pyLen brief ≤ 20000) (hnew : db.findRun rid = none) :
    create_run db "super-app" brief rid now =
      { db := { db with runs := db.runs ++
          [⟨rid, "super-app", brief, "IN_PROGRESS_REQUIREMENTS", some 1, false, now, now⟩] },
        result := .ok
          ⟨rid, "super-app", brief, "IN_PROGRESS_REQUIREMENTS", some 1, false, now, now⟩,
        triggered := [⟨rid, "requirements",
          "http://localhost:5678/webhook/brief-to-requirements",
          jobj [("run_id", .str rid),
                ("context", build_context_for_agent "requirements"
                  ⟨rid, "super-app", brief, "IN_PROGRESS_REQUIREMENTS", some 1, false, now, now⟩ []),
                ("is_feedback", .bool false), ("feedback", .str "")]⟩] } ∧
    build_context_for_agent "requirements"
        ⟨rid, "super-app", brief, "IN_PROGRESS_REQUIREMENTS", some 1, false, now, now⟩ [] =
      jobj [("domain", .str "super-app"), ("brief", .str brief)] ∧
    (create_run db "super-app" brief rid now).db.executions = db.executions := by
  have hv : ¬¬("super-app" = "super-app" ∧ 30 ≤ pyLen brief ∧ pyLen brief ≤ 20000) :=
    not_not_intro ⟨rfl, hb.1, hb.2⟩
  have hfa : get_first_pipeline_agent = some ⟨1, "Requirements Agent", "requirements",
      "http://localhost:5678/webhook/brief-to-requirements", 1⟩ := by decide
  have hup : pyUpper "requirements" = "REQUIREMENTS" := by decide
  have hnlt : ¬(20000 < pyLen brief) := not_lt.mpr hb.2
  refine ⟨?_, by simp [build_context_for_agent], ?_⟩ <;>
    simp [create_run, if_neg hv, hfa, hnew, hup, hb.1, hb.2, hnlt]

/-- Witness for C6 (amended) at the empty database. -/
theorem c6_start_transition_amended_witness :
    create_run DbState.init "super-app" briefB "r1" 0 =
      { db := { DbState.init with runs := DbState.init.runs ++
          [⟨"r1", "super-app", briefB, "IN_PROGRESS_REQUIREMENTS", some 1, false, 0, 0⟩] },
        result := .ok
          ⟨"r1", "super-app", briefB, "IN_PROGRESS_REQUIREMENTS", some 1, false, 0, 0⟩,
        triggered := [⟨"r1", "requirements",
          "http://localhost:5678/webhook/brief-to-requirements",
          jobj [("run_id", .str "r1"),
                ("context", build_context_for_agent "requirements"
                  ⟨"r1", "super-app", briefB, "IN_PROGRESS_REQUIREMENTS", some 1, false, 0, 0⟩ []),
                ("is_feedback", .bool false), ("feedback", .str "")]⟩] } ∧
    build_context_for_agent "requirements"
        ⟨"r1", "super-app", briefB, "IN_PROGRESS_REQUIREMENTS", some 1, false, 0, 0⟩ [] =
      jobj [("domain", .str "super-app"), ("brief", .str briefB)] ∧
    (create_run DbState.init "super-app" briefB "r1" 0).db.executions =
      DbState.init.executions :=
  c6_start_transition_amended DbState.init briefB "r1" 0 (by decide) (by decide)

theorem updateRun_artifacts (db : DbState) (rid : String) (f : RunRow → RunRow) :
    (db.updateRun rid f).artifacts = db.artifacts := rfl

theorem updateRun_executions (db : DbState) (rid : String) (f : RunRow → RunRow) :
    (db.updateRun rid f).executions = db.executions := rfl

theorem updateRun_logs (db : DbState) (rid : String) (f : RunRow → RunRow) :
    (db.updateRun rid f).logs = db.logs := rfl

/-! ## Claim C3 — reject transition -/

/-- Counterexample to C3 as stated: on the reachable state `dbB` (run `r1`
awaiting a decision on step 1), `reject` with non-empty feedback succeeds and
moves the run to `RETRYING_REQUIREMENTS`, but it opens no Execution row at
all — the executions table is empty before and after — refuting "opens a new
Execution row whose attempt counter is the previous maximum attempt plus one
and whose is_feedback flag is true". -/
theorem c3_reject_transition_counterexample :
    (dbB.findRun "r1").map (·.is_waiting_for_user) = some true ∧
    dbB.executions = [] ∧
    exceptIsOk (reject_run dbB "r1" "fix X please" 2).result = true ∧
    ((reject_run dbB "r1" "fix X please" 2).db.findRun "r1").map (·.status) =
      some "RETRYING_REQUIREMENTS" ∧
    (reject_run dbB "r1" "fix X please" 2).db.executions = [] := by
  decide

/-- C3 (amended): for every run awaiting a user decision, a reject with
non-empty feedback (the request schema demands at least 3 characters) loads
the latest artifact of the current step's produced type as correction
context, sets the run status to `RETRYING_<step>` with
`awaiting_user_decision` false, and re-triggers the agent with
`is_feedback=true` and the feedback text — but it opens no new Execution row
(the incremented-attempt `is_feedback` Execution is only opened when the
chat step endpoint is subsequently invoked with `is_feedback=true`), and
leaves artifacts and executions untouched. -/
theorem c3_reject_transition_amended (db : DbState) (run_id fb : String) (now : Nat)
    (run : RunRow) (ag : AgentRow) (la : ArtifactRow) (ty : String)
    (hrun : db.findRun run_id = some run)
    (hw : run.is_waiting_for_user = true)
    (hag : run.currentAgent = some ag)
    (hty : get_expected_artifact_type ag.slug = some ty)
    (hla : get_latest_artifact_for_type db run.id ty = some la)
    (hlen : 3 ≤ pyLen fb ∧ pyLen fb ≤ 10000) :
    (reject_run db run_id fb now).db.executions = db.executions ∧
    (reject_run db run_id fb now).db.artifacts = db.artifacts ∧
    (reject_run db run_id fb now).result = .ok
      { run with is_waiting_for_user := false,
                 status := "RETRYING_" ++ pyUpper ag.slug, updated_at := now } ∧
    ((reject_run db run_id fb now).db.findRun run_id) = some
      { run with is_waiting_for_user := false,
                 status := "RETRYING_" ++ pyUpper ag.slug, updated_at := now } ∧
    (reject_run db run_id fb now).triggered = [⟨run.id, ag.slug, ag.n8n_webhook_url,
      jobj [("run_id", .str run.id), ("context", decodeOrRaw la.content_json),
            ("is_feedback", .bool true), ("feedback", .str fb)]⟩] := by
  have hv : ¬¬(3 ≤ pyLen fb ∧ pyLen fb ≤ 10000) := not_not_intro hlen
  have hfr := findRun_updateRun_self db run_id
    (fun r => { r with is_waiting_for_user := false,
                       status := "RETRYING_" ++ pyUpper ag.slug, updated_at := now })
    (fun r => rfl)
  simp only [reject_run, if_neg hv, hrun, hw, Bool.not_true, hag, hty, hla]
  simp [hla, hfr, hrun, updateRun_artifacts, updateRun_executions]

/-- Witness for C3 (amended) at the reachable state `dbB`. -/
theorem c3_reject_transition_amended_witness :
    (reject_run dbB "r1" "fix X please" 2).db.executions = dbB.executions ∧
    (reject_run dbB "r1" "fix X please" 2).db.artifacts = dbB.artifacts ∧
    (reject_run dbB "r1" "fix X please" 2).result = .ok
      { runB with is_waiting_for_user := false,
                  status := "RETRYING_" ++ pyUpper agReq.slug, updated_at := 2 } ∧
    ((reject_run dbB "r1" "fix X please" 2).db.findRun "r1") = some
      { runB with is_waiting_for_user := false,
                  status := "RETRYING_" ++ pyUpper agReq.slug, updated_at := 2 } ∧
    (reject_run dbB "r1" "fix X please" 2).triggered =
      [⟨runB.id, agReq.slug, agReq.n8n_webhook_url,
        jobj [("run_id", .str runB.id), ("context", decodeOrRaw laB.content_json),
              ("is_feedback", .bool true), ("feedback", .str "fix X please")]⟩] :=
  c3_reject_transition_amended dbB "r1" "fix X please" 2 runB agReq laB
    "requirements" (by decide) (by decide) (by decide) (by decide) (by decide)
    (by decide)

/-! ## Claim C8 — context builder -/

theorem compact_lookup_none (k : String) : ∀ (l : List (String × Json)),
    (∀ v, (k, v) ∈ l → v = Json.null) → (_compact_dict l).lookup? k = none := by
  intro l
  induction l with
  | nil => intro _; rfl
  | cons kv tl ih =>
    intro h
    obtain ⟨k', v⟩ := kv
    have htl : ∀ v, (k, v) ∈ tl → v = Json.null := fun v hv =>
      h v (List.mem_cons_of_mem _ hv)
    by_cases hv : v = Json.null
    · have : (_compact_dict ((k', v) :: tl)) = _compact_dict tl := by
        simp [_compact_dict, List.filter_cons, hv]
      rw [this]; exact ih htl
    · have hne : k' ≠ k := by
        intro hk; exact hv (h v (by simp [hk]))
      have : (_compact_dict ((k', v) :: tl)) =
          JObj.cons k' v (_compact_dict tl) := by
        simp [_compact_dict, List.filter_cons, hv, JObj.ofList]
      rw [this]
      simp [JObj.lookup?, hne, ih htl]

theorem compact_lookup_ne_null (k : String) : ∀ (l : List (String × Json)),
    (_compact_dict l).lookup? k ≠ some Json.null := by
  intro l
  induction l with
  | nil => simp [_compact_dict, JObj.ofList, JObj.lookup?]
  | cons kv tl ih =>
    obtain ⟨k', v⟩ := kv
    by_cases hv : v = Json.null
    · have : (_compact_dict ((k', v) :: tl)) = _compact_dict tl := by
        simp [_compact_dict, List.filter_cons, hv]
      rw [this]; exact ih
    · have : (_compact_dict ((k', v) :: tl)) =
          JObj.cons k' v (_compact_dict tl) := by
        simp [_compact_dict, List.filter_cons, hv, JObj.ofList]
      rw [this]
      by_cases hk : k' = k
      · simp [JObj.lookup?, hk, hv]
      · simp [JObj.lookup?, hk, ih]

/-- Structural induction principle for `JObj` alone (the `induction` tactic
does not directly handle the mutual package). -/
theorem JObj.inductionOn {P : JObj → Prop} (h0 : P .nil)
    (h1 : ∀ k v tl, P tl → P (.cons k v tl)) : ∀ o : JObj, P o
  | .nil => h0
  | .cons k v tl => h1 k v tl (JObj.inductionOn h0 h1 tl)

theorem lookup_setKey : ∀ (o : JObj) (k k' : String) (v : Json),
    (o.setKey k v).lookup? k' = if k = k' then some v else o.lookup? k' := by
  intro o
  induction o using JObj.inductionOn with
  | h0 => intro k k' v; simp [JObj.setKey, JObj.lookup?]
  | h1 k0 v0 tl ih =>
    intro k k' v
    by_cases h0 : k0 = k
    · subst h0
      by_cases hk : k0 = k'
      · simp [JObj.setKey, JObj.lookup?, hk]
      · simp [JObj.setKey, JObj.lookup?, hk]
    · simp only [JObj.setKey, if_neg h0, JObj.lookup?]
      by_cases hk : k0 = k'
      · subst hk
        have : k ≠ k0 := fun h => h0 h.symm
        simp [this]
      · simp [hk, ih]

theorem update_lookup_notmem : ∀ (ext base : JObj) (k : String), k ∉ ext.keys →
    (pyDictUpdate base ext).lookup? k = base.lookup? k := by
  intro ext
  induction ext using JObj.inductionOn with
  | h0 => intro base k _; rfl
  | h1 k0 v0 tl ih =>
    intro base k hk
    simp only [JObj.keys, List.mem_cons, not_or] at hk
    simp only [pyDictUpdate]
    rw [ih _ _ hk.2, lookup_setKey, if_neg (fun h => hk.1 h.symm)]

theorem update_lookup_mem : ∀ (ext base : JObj) (k : String), ext.keys.Nodup →
    ext.hasKey k = true →
    (pyDictUpdate base ext).lookup? k = ext.lookup? k := by
  intro ext
  induction ext using JObj.inductionOn with
  | h0 => intro base k _ h; simp [JObj.hasKey, JObj.lookup?] at h
  | h1 k0 v0 tl ih =>
    intro base k hnd hmem
    simp only [JObj.keys, List.nodup_cons] at hnd
    by_cases h0 : k0 = k
    · subst h0
      simp only [pyDictUpdate]
      rw [update_lookup_notmem _ _ _ hnd.1, lookup_setKey]
      simp [JObj.lookup?]
    · have hmem' : tl.hasKey k = true := by
        simpa [JObj.hasKey, JObj.lookup?, h0] using hmem
      simp only [pyDictUpdate, JObj.lookup?, if_neg h0]
      exact ih _ _ hnd.2 hmem'

theorem keys_ofList : ∀ (m : List (String × Json)),
    (JObj.ofList m).keys = m.map Prod.fst := by
  intro m
  induction m with
  | nil => rfl
  | cons kv tl ih => obtain ⟨k, v⟩ := kv; simp [JObj.ofList, JObj.keys, ih]

theorem lookup_ofList : ∀ (m : List (String × Json)) (k : String),
    (JObj.ofList m).lookup? k = (m.find? (fun kv => kv.1 = k)).map Prod.snd := by
  intro m
  induction m with
  | nil => intro k; rfl
  | cons kv tl ih =>
    intro k
    obtain ⟨k', v⟩ := kv
    by_cases h : k' = k <;> simp [JObj.ofList, JObj.lookup?, List.find?, h, ih]

theorem build_requirements_eq (r : RunRow) (m : List (String × Json)) :
    build_context_for_agent "requirements" r m =
      jobj [("domain", .str r.domain), ("brief", .str r.brief)] := rfl

theorem build_inception_eq (r : RunRow) (m : List (String × Json)) :
    build_context_for_agent "inception" r m = .obj (_compact_dict
      [("domain", .str r.domain), ("brief", .str r.brief),
       ("requirements", mapGet m "requirements")]) := rfl

theorem build_agile_eq (r : RunRow) (m : List (String × Json)) :
    build_context_for_agent "agile" r m = .obj (_compact_dict
      [("requirements", mapGet m "requirements"),
       ("inception", mapGet m "inception")]) := rfl

theorem build_diagramacion_eq (r : RunRow) (m : List (String × Json)) :
    build_context_for_agent "diagramacion" r m = .obj (_compact_dict
      [("requirements", mapGet m "requirements"),
       ("inception", mapGet m "inception"), ("agile", mapGet m "agile")]) := rfl

theorem build_pseudocodigo_eq (r : RunRow) (m : List (String × Json)) :
    build_context_for_agent "pseudocodigo" r m = .obj (_compact_dict
      [("requirements", mapGet m "requirements"), ("agile", mapGet m "agile"),
       ("diagramacion", mapGet m "diagramacion")]) := rfl

theorem build_qa_eq (r : RunRow) (m : List (String × Json)) :
    build_context_for_agent "qa" r m = .obj (_compact_dict
      [("requirements", mapGet m "requirements"),
       ("inception", mapGet m "inception"), ("agile", mapGet m "agile"),
       ("diagramacion", mapGet m "diagramacion"),
       ("pseudocodigo", mapGet m "pseudocodigo")]) := rfl

theorem objHasKey_compact (l : List (String × Json)) (k : String)
    (h : ∀ v, (k, v) ∈ l → v = Json.null) :
    (Json.obj (_compact_dict l)).objHasKey k = false := by
  simp [Json.objHasKey, JObj.hasKey, compact_lookup_none k l h]

/-- C8: `build_context_for_agent` is referentially transparent (identical
inputs give identical output); for the first step it returns exactly the
run's domain and brief; for each known step it omits every declared
dependency whose artifact is absent from the latest-artifact map and never
emits a null placeholder; an unknown step slug falls back to a payload of
domain and brief updated with the full latest-artifact map (map entries win
on key collisions, domain/brief survive when not shadowed). -/
theorem c8_context_builder :
    (∀ (slug : String) (r₁ r₂ : RunRow) (m₁ m₂ : List (String × Json)),
        r₁ = r₂ → m₁ = m₂ →
        build_context_for_agent slug r₁ m₁ = build_context_for_agent slug r₂ m₂) ∧
    (∀ r m, build_context_for_agent "requirements" r m =
        jobj [("domain", .str r.domain), ("brief", .str r.brief)]) ∧
    (∀ r m dep, dep ∈ ["requirements"] → mapGet m dep = .null →
        (build_context_for_agent "inception" r m).objHasKey dep = false) ∧
    (∀ r m dep, dep ∈ ["requirements", "inception"] → mapGet m dep = .null →
        (build_context_for_agent "agile" r m).objHasKey dep = false) ∧
    (∀ r m dep, dep ∈ ["requirements", "inception", "agile"] →
        mapGet m dep = .null →
        (build_context_for_agent "diagramacion" r m).objHasKey dep = false) ∧
    (∀ r m dep, dep ∈ ["requirements", "agile", "diagramacion"] →
        mapGet m dep = .null →
        (build_context_for_agent "pseudocodigo" r m).objHasKey dep = false) ∧
    (∀ r m dep, dep ∈ ["requirements", "inception", "agile", "diagramacion",
        "pseudocodigo"] → mapGet m dep = .null →
        (build_context_for_agent "qa" r m).objHasKey dep = false) ∧
    (∀ (slug : String) r m k, slug ∈ PIPELINE_SLUGS →
        (build_context_for_agent slug r m).objLookup k ≠ some .null) ∧
    (∀ (slug : String) r m, slug ∉ PIPELINE_SLUGS →
        build_context_for_agent slug r m = .obj (pyDictUpdate
          (JObj.ofList [("domain", .str r.domain), ("brief", .str r.brief)])
          (JObj.ofList m)) ∧
        (∀ k, (m.map Prod.fst).Nodup → (JObj.ofList m).hasKey k = true →
          (build_context_for_agent slug r m).objLookup k =
            (JObj.ofList m).lookup? k) ∧
        ("domain" ∉ m.map Prod.fst →
          (build_context_for_agent slug r m).objLookup "domain" =
            some (.str r.domain)) ∧
        ("brief" ∉ m.map Prod.fst →
          (build_context_for_agent slug r m).objLookup "brief" =
            some (.str r.brief))) := by
  refine ⟨fun slug r₁ r₂ m₁ m₂ h1 h2 => by rw [h1, h2],
    fun r m => rfl, ?_, ?_, ?_, ?_, ?_, ?_, ?_⟩
  · intro r m dep hdep hnull
    rw [build_inception_eq]
    apply objHasKey_compact
    intro v hv
    fin_cases hdep
    simp_all
  · intro r m dep hdep hnull
    rw [build_agile_eq]
    apply objHasKey_compact
    intro v hv
    fin_cases hdep <;> simp_all
  · intro r m dep hdep hnull
    rw [build_diagramacion_eq]
    apply objHasKey_compact
    intro v hv
    fin_cases hdep <;> simp_all
  · intro r m dep hdep hnull
    rw [build_pseudocodigo_eq]
    apply objHasKey_compact
    intro v hv
    fin_cases hdep <;> simp_all
  · intro r m dep hdep hnull
    rw [build_qa_eq]
    apply objHasKey_compact
    intro v hv
    fin_cases hdep <;> simp_all
  · intro slug r m k hslug
    fin_cases hslug
    · rw [build_requirements_eq]
      simp only [jobj, Json.objLookup, JObj.ofList, JObj.lookup?]
      split_ifs <;> simp
    · rw [build_inception_eq]; simpa [Json.objLookup] using compact_lookup_ne_null k _
    · rw [build_agile_eq]; simpa [Json.objLookup] using compact_lookup_ne_null k _
    · rw [build_diagramacion_eq]
      simpa [Json.objLookup] using compact_lookup_ne_null k _
    · rw [build_pseudocodigo_eq]
      simpa [Json.objLookup] using compact_lookup_ne_null k _
    · rw [build_qa_eq]; simpa [Json.objLookup] using compact_lookup_ne_null k _
  · intro slug r m hslug
    have h1 : ¬(slug = "requirements") := fun h => hslug (by rw [h]; decide)
    have h2 : ¬(slug = "inception") := fun h => hslug (by rw [h]; decide)
    have h3 : ¬(slug = "agile") := fun h => hslug (by rw [h]; decide)
    have h4 : ¬(slug = "diagramacion") := fun h => hslug (by rw [h]; decide)
    have h5 : ¬(slug = "pseudocodigo") := fun h => hslug (by rw [h]; decide)
    have h6 : ¬(slug = "qa") := fun h => hslug (by rw [h]; decide)
    have hfb : build_context_for_agent slug r m = .obj (pyDictUpdate
        (JObj.ofList [("domain", .str r.domain), ("brief", .str r.brief)])
        (JObj.ofList m)) := by
      simp [build_context_for_agent, h1, h2, h3, h4, h5, h6]
    refine ⟨hfb, ?_, ?_, ?_⟩
    · intro k hnd hmem
      rw [hfb]
      simp only [Json.objLookup]
      exact update_lookup_mem _ _ _ (by rw [keys_ofList]; exact hnd) hmem
    · intro hdom
      rw [hfb]
      simp only [Json.objLookup]
      rw [update_lookup_notmem _ _ _ (by rw [keys_ofList]; exact hdom)]
      simp [JObj.ofList, JObj.lookup?]
    · intro hbr
      rw [hfb]
      simp only [Json.objLookup]
      rw [update_lookup_notmem _ _ _ (by rw [keys_ofList]; exact hbr)]
      simp [JObj.ofList, JObj.lookup?]

/-- Witness for C8 at a concrete run and latest-artifact map. -/
theorem c8_context_builder_witness :
    build_context_for_agent "requirements" runW mapW =
      jobj [("domain", .str "super-app"), ("brief", .str "b")] ∧
    (build_context_for_agent "agile" runW mapW).objHasKey "inception" = false ∧
    (build_context_for_agent "agile" runW mapW).objLookup "x" ≠ some .null ∧
    build_context_for_agent "mystery" runW mapW = .obj (pyDictUpdate
      (JObj.ofList [("domain", .str "super-app"), ("brief", .str "b")])
      (JObj.ofList mapW)) := by
  obtain ⟨hdet, hfirst, hinc, hagl, hdia, hpse, hqa, hnull, hfb⟩ := c8_context_builder
  exact ⟨hfirst runW mapW, hagl runW mapW "inception" (by decide) (by decide),
    hnull "agile" runW mapW "x" (by decide),
    (hfb "mystery" runW mapW (by decide)).1⟩

/-! ## Claim C2 — latest-artifact resolution -/

theorem maxByVersion_eq_argmax (l : List ArtifactRow) :
    maxByVersion l = l.argmax (·.version) := by
  unfold maxByVersion List.argmax
  congr 1
  funext acc a
  cases acc <;> simp [List.argAux]

theorem maxByCreated_eq_argmax (l : List ArtifactRow) :
    maxByCreated l = l.argmax (·.created_at) := by
  unfold maxByCreated List.argmax
  congr 1
  funext acc a
  cases acc <;> simp [List.argAux]

theorem maxByVersion_spec {l : List ArtifactRow} {r : ArtifactRow}
    (h : maxByVersion l = some r) : r ∈ l ∧ ∀ b ∈ l, b.version ≤ r.version := by
  rw [maxByVersion_eq_argmax] at h
  exact ⟨List.argmax_mem h, fun b hb => List.le_of_mem_argmax hb h⟩

theorem maxByCreated_spec {l : List ArtifactRow} {r : ArtifactRow}
    (h : maxByCreated l = some r) :
    r ∈ l ∧ ∀ b ∈ l, b.created_at ≤ r.created_at := by
  rw [maxByCreated_eq_argmax] at h
  exact ⟨List.argmax_mem h, fun b hb => List.le_of_mem_argmax hb h⟩

theorem maxByCreated_isSome {l : List ArtifactRow} (h : l ≠ []) :
    (maxByCreated l).isSome := by
  rw [maxByCreated_eq_argmax, Option.isSome_iff_ne_none]
  intro hn
  exact h (List.argmax_eq_none.mp hn)

theorem mem_artifactsFor {db : DbState} {rid ty : String} {a : ArtifactRow} :
    a ∈ artifactsFor db rid ty ↔
      a ∈ db.artifacts ∧ a.run_id = rid ∧ a.artifact_type = ty := by
  simp [artifactsFor, List.mem_filter]

theorem mem_runArtifacts {db : DbState} {rid : String} {a : ArtifactRow} :
    a ∈ runArtifacts db rid ↔ a ∈ db.artifacts ∧ a.run_id = rid := by
  simp [runArtifacts, List.mem_filter]

theorem mem_sortByCreatedDesc {l : List ArtifactRow} {a : ArtifactRow} :
    a ∈ sortByCreatedDesc l ↔ a ∈ l := by
  simp [sortByCreatedDesc]

theorem sorted_sortByCreatedDesc (l : List ArtifactRow) :
    (sortByCreatedDesc l).Sorted (fun a b => b.created_at ≤ a.created_at) :=
  List.sorted_insertionSort _ l

/-- In a list sorted by descending creation time, the first row of a given
type is creation-time-maximal among the rows of that type. -/
theorem sorted_find_max {l : List ArtifactRow}
    (hs : l.Sorted (fun a b => b.created_at ≤ a.created_at)) {ty : String}
    {r : ArtifactRow} (h : l.find? (fun a => a.artifact_type = ty) = some r) :
    r ∈ l ∧ r.artifact_type = ty ∧
      ∀ b ∈ l, b.artifact_type = ty → b.created_at ≤ r.created_at := by
  induction l with
  | nil => simp at h
  | cons x xs ih =>
    by_cases hx : x.artifact_type = ty
    · have hrx : r = x := by
        rw [List.find?_cons_of_pos _ (by simp [hx])] at h
        exact (Option.some_inj.mp h).symm
      subst hrx
      refine ⟨List.mem_cons_self _ _, hx, ?_⟩
      intro b hb _
      rcases List.mem_cons.mp hb with hbx | hbxs
      · subst hbx; exact le_refl _
      · exact List.rel_of_sorted_cons hs b hbxs
    · have h' : xs.find? (fun a => a.artifact_type = ty) = some r := by
        simpa [List.find?_cons, hx] using h
      obtain ⟨hm, hty, hmax⟩ := ih hs.of_cons h'
      refine ⟨List.mem_cons_of_mem _ hm, hty, ?_⟩
      intro b hb hbty
      rcases List.mem_cons.mp hb with hbx | hbxs
      · subst hbx; exact absurd hbty hx
      · exact hmax b hbxs hbty

/-- The first-per-type scan does not change which row is found first for a
type not yet seen. -/
theorem firstPerType_find (ty : String) : ∀ (l : List ArtifactRow)
    (seen : List String), ty ∉ seen →
    (firstPerType seen l).find? (fun a => a.artifact_type = ty) =
      l.find? (fun a => a.artifact_type = ty) := by
  intro l
  induction l with
  | nil => intro seen _; rfl
  | cons x xs ih =>
    intro seen hseen
    by_cases hx : x.artifact_type ∈ seen
    · have h1 : firstPerType seen (x :: xs) = firstPerType seen xs := by
        simp [firstPerType, hx]
      have hne : ¬(x.artifact_type = ty) := fun h => hseen (h ▸ hx)
      rw [h1, ih seen hseen]
      simp [List.find?_cons, hne]
    · have h1 : firstPerType seen (x :: xs) =
          x :: firstPerType (x.artifact_type :: seen) xs := by
        simp [firstPerType, hx]
      rw [h1]
      by_cases hxty : x.artifact_type = ty
      · simp [List.find?_cons, hxty]
      · have hnotin : ty ∉ x.artifact_type :: seen := by
          simp only [List.mem_cons, not_or]
          exact ⟨fun h => hxty h.symm, hseen⟩
        simp [List.find?_cons, hxty, ih _ hnotin]

/-- Counterexample to C2 as stated: in the reachable state `dbX` (two
callbacks whose `utcnow` timestamps are not monotone — versions 1 and 2 of
type `requirements` with creation times 1 and 0), all three read paths
resolve "latest" by creation time, not by version: they return version 1
even though version 2 exists, refuting "return the artifact with the maximum
version among artifacts with (run, type)". -/
theorem c2_latest_resolution_counterexample :
    dbX.artifacts.map (fun a => (a.artifact_type, a.version, a.created_at)) =
      [("requirements", 1, 1), ("requirements", 2, 0)] ∧
    (get_latest_artifact_for_type dbX "r1" "requirements").map (·.version) =
      some 1 ∧
    mapGet (get_latest_artifacts_by_type dbX "r1") "requirements" =
      jobj [("x", .num 1)] ∧
    (export_artifacts dbX "r1" 9).result =
      .ok ⟨"r1", 9, [⟨"requirements", 1, 1, jobj [("x", .num 1)]⟩]⟩ := by
  decide

/-- C2 (amended): the three latest-artifact read paths (single-type lookup,
latest-by-type map, export) all resolve "latest" as the artifact with the
maximal `created_at` for (run, type) — the SQL queries order by creation
time, not by version.  Whenever creation timestamps are strictly monotone in
the version number (the normal situation, and the only one in which the
original claim's tie-breaking makes sense), the returned artifact is
version-maximal, all three paths agree on a version-maximal row, the
latest-by-type map carries its decoded content and the export carries its
extracted content.  When timestamps disagree with version order the paths
return a non-maximal version (see the counterexample). -/
theorem c2_latest_resolution_amended (db : DbState) (rid ty : String)
    (hne : artifactsFor db rid ty ≠ [])
    (hmono : ∀ a ∈ artifactsFor db rid ty, ∀ b ∈ artifactsFor db rid ty,
      a.version < b.version → a.created_at < b.created_at) :
    (∃ r, get_latest_artifact_for_type db rid ty = some r ∧
      r ∈ artifactsFor db rid ty ∧
      ∀ b ∈ artifactsFor db rid ty, b.version ≤ r.version) ∧
    (∃ r, (sortByCreatedDesc (runArtifacts db rid)).find?
        (fun a => a.artifact_type = ty) = some r ∧
      r ∈ artifactsFor db rid ty ∧
      (∀ b ∈ artifactsFor db rid ty, b.version ≤ r.version) ∧
      mapGet (get_latest_artifacts_by_type db rid) ty =
        decodeOrRaw r.content_json ∧
      (∀ (now : Nat) (out : RunArtifactsExport),
        (export_artifacts db rid now).result = .ok out →
        ArtifactExportItem.mk ty r.version r.created_at
          (_extract_artifact_only (decodeOrRaw r.content_json)) ∈ out.artifacts)) := by
  have hconv : ∀ r ∈ artifactsFor db rid ty,
      (∀ b ∈ artifactsFor db rid ty, b.created_at ≤ r.created_at) →
      ∀ b ∈ artifactsFor db rid ty, b.version ≤ r.version := by
    intro r hr hmax b hb
    by_contra hlt
    push_neg at hlt
    have h1 := hmono r hr b hb hlt
    have h2 := hmax b hb
    omega
  constructor
  · obtain ⟨r, hr⟩ := Option.isSome_iff_exists.mp (maxByCreated_isSome hne)
    obtain ⟨hmem, hmax⟩ := maxByCreated_spec hr
    exact ⟨r, hr, hmem, hconv r hmem hmax⟩
  · obtain ⟨b0, hb0⟩ := List.exists_mem_of_ne_nil _ hne
    have hb0af := mem_artifactsFor.mp hb0
    have hb0l : b0 ∈ sortByCreatedDesc (runArtifacts db rid) :=
      mem_sortByCreatedDesc.mpr (mem_runArtifacts.mpr ⟨hb0af.1, hb0af.2.1⟩)
    have hfindSome : ((sortByCreatedDesc (runArtifacts db rid)).find?
        (fun a => a.artifact_type = ty)).isSome :=
      List.find?_isSome.mpr ⟨b0, hb0l, by simp [hb0af.2.2]⟩
    obtain ⟨r, hr⟩ := Option.isSome_iff_exists.mp hfindSome
    obtain ⟨hrmem, hrty, hrmax⟩ := sorted_find_max (sorted_sortByCreatedDesc _) hr
    have hrra := mem_runArtifacts.mp (mem_sortByCreatedDesc.mp hrmem)
    have hraf : r ∈ artifactsFor db rid ty :=
      mem_artifactsFor.mpr ⟨hrra.1, hrra.2, hrty⟩
    have hmaxaf : ∀ b ∈ artifactsFor db rid ty, b.created_at ≤ r.created_at := by
      intro b hb
      have hbaf := mem_artifactsFor.mp hb
      exact hrmax b (mem_sortByCreatedDesc.mpr
        (mem_runArtifacts.mpr ⟨hbaf.1, hbaf.2.1⟩)) hbaf.2.2
    have hver := hconv r hraf hmaxaf
    have hmapfind : (get_latest_artifacts_by_type db rid).find?
        (fun kv => kv.1 = ty) =
        some (r.artifact_type, decodeOrRaw r.content_json) := by
      have h1 := List.find?_map
        (fun a : ArtifactRow => (a.artifact_type, decodeOrRaw a.content_json))
        (p := fun kv : String × Json => kv.1 = ty)
        (firstPerType [] (sortByCreatedDesc (runArtifacts db rid)))
      have h2 : (get_latest_artifacts_by_type db rid).find?
          (fun kv : String × Json => kv.1 = ty) =
          ((firstPerType [] (sortByCreatedDesc (runArtifacts db rid))).find?
            (fun a : ArtifactRow => a.artifact_type = ty)).map
            (fun a => (a.artifact_type, decodeOrRaw a.content_json)) := h1
      rw [h2, firstPerType_find ty _ [] (List.not_mem_nil ty), hr]
      rfl
    refine ⟨r, hr, hraf, hver, ?_, ?_⟩
    · simp [mapGet, hmapfind]
    · intro now out hout
      cases hfind : db.findRun rid with
      | none => rw [export_artifacts, hfind] at hout; simp at hout
      | some run0 =>
        rw [export_artifacts, hfind] at hout
        simp only [Except.ok.injEq] at hout
        subst hout
        simp only [List.mem_insertionSort]
        have hrfp : (firstPerType [] (sortByCreatedDesc (runArtifacts db rid))).find?
            (fun a => a.artifact_type = ty) = some r := by
          rw [firstPerType_find ty _ [] (List.not_mem_nil ty)]; exact hr
        have hmem2 := List.mem_map_of_mem
          (fun a : ArtifactRow => ArtifactExportItem.mk a.artifact_type a.version
            a.created_at (_extract_artifact_only (decodeOrRaw a.content_json)))
          (List.mem_of_find?_eq_some hrfp)
        rw [← hrty]
        simpa using hmem2

/-- Witness for C2 (amended) on the reachable state `dbY`, where the two
stored versions have monotone timestamps. -/
theorem c2_latest_resolution_amended_witness :
    (∃ r, get_latest_artifact_for_type dbY "r1" "requirements" = some r ∧
      r ∈ artifactsFor dbY "r1" "requirements" ∧
      ∀ b ∈ artifactsFor dbY "r1" "requirements", b.version ≤ r.version) ∧
    (∃ r, (sortByCreatedDesc (runArtifacts dbY "r1")).find?
        (fun a => a.artifact_type = "requirements") = some r ∧
      r ∈ artifactsFor dbY "r1" "requirements" ∧
      (∀ b ∈ artifactsFor dbY "r1" "requirements", b.version ≤ r.version) ∧
      mapGet (get_latest_artifacts_by_type dbY "r1") "requirements" =
        decodeOrRaw r.content_json ∧
      (∀ (now : Nat) (out : RunArtifactsExport),
        (export_artifacts dbY "r1" now).result = .ok out →
        ArtifactExportItem.mk "requirements" r.version r.created_at
          (_extract_artifact_only (decodeOrRaw r.content_json)) ∈ out.artifacts)) :=
  c2_latest_resolution_amended dbY "r1" "requirements" (by decide) (by decide)

/-! ## Claim C7 — degraded decoding of malformed stored content -/

/-- The latest-by-type map holds, for type `ty`, exactly the decoded (or
degraded) content of the first type-`ty` row of the creation-desc scan. -/
theorem latest_map_find (db : DbState) (rid ty : String) (r : ArtifactRow)
    (hr : (sortByCreatedDesc (runArtifacts db rid)).find?
      (fun a => a.artifact_type = ty) = some r) :
    (get_latest_artifacts_by_type db rid).find? (fun kv => kv.1 = ty) =
      some (r.artifact_type, decodeOrRaw r.content_json) := by
  have h2 : (get_latest_artifacts_by_type db rid).find?
      (fun kv : String × Json => kv.1 = ty) =
      ((firstPerType [] (sortByCreatedDesc (runArtifacts db rid))).find?
        (fun a : ArtifactRow => a.artifact_type = ty)).map
        (fun a => (a.artifact_type, decodeOrRaw a.content_json)) :=
    List.find?_map
      (fun a : ArtifactRow => (a.artifact_type, decodeOrRaw a.content_json))
      (p := fun kv : String × Json => kv.1 = ty) _
  rw [h2, firstPerType_find ty _ [] (List.not_mem_nil ty), hr]
  rfl

/-- The export contains, for every type found by the creation-desc scan, the
item built from that row. -/
theorem export_item_mem (db : DbState) (rid ty : String) (r : ArtifactRow)
    (hr : (sortByCreatedDesc (runArtifacts db rid)).find?
      (fun a => a.artifact_type = ty) = some r) :
    ∀ (now : Nat) (out : RunArtifactsExport),
      (export_artifacts db rid now).result = .ok out →
      ArtifactExportItem.mk r.artifact_type r.version r.created_at
        (_extract_artifact_only (decodeOrRaw r.content_json)) ∈ out.artifacts := by
  intro now out hout
  cases hfind : db.findRun rid with
  | none => rw [export_artifacts, hfind] at hout; simp at hout
  | some run0 =>
    rw [export_artifacts, hfind] at hout
    simp only [Except.ok.injEq] at hout
    subst hout
    simp only [List.mem_insertionSort]
    have hrfp : (firstPerType [] (sortByCreatedDesc (runArtifacts db rid))).find?
        (fun a => a.artifact_type = ty) = some r := by
      rw [firstPerType_find ty _ [] (List.not_mem_nil ty)]; exact hr
    have hmem2 := List.mem_map_of_mem
      (fun a : ArtifactRow => ArtifactExportItem.mk a.artifact_type a.version
        a.created_at (_extract_artifact_only (decodeOrRaw a.content_json)))
      (List.mem_of_find?_eq_some hrfp)
    simpa using hmem2

/-- Counterexample to C7 as stated: for a stored artifact whose content is
undecodable, the latest-by-type map and the export do wrap the raw text as a
degraded artifact, but the latest-artifact endpoint calls `json.loads`
without any handler and raises (an uncaught `JSONDecodeError`, HTTP 500)
instead of returning a degraded artifact — refuting "every read path that
returns artifact content". -/
theorem c7_degraded_decoding_counterexample :
    jsonLoads "not json" = none ∧
    (get_latest_artifact dbU "ru" (some "requirements") none).result =
      .error (.uncaught "json.decoder.JSONDecodeError") ∧
    mapGet (get_latest_artifacts_by_type dbU "ru") "requirements" =
      jobj [("raw_content", .str "not json")] ∧
    (export_artifacts dbU "ru" 9).result =
      .ok ⟨"ru", 9, [⟨"requirements", 1, 3,
        jobj [("raw_content", .str "not json")]⟩]⟩ := by
  decide

/-- C7 (amended): for every stored artifact whose `content_json` is not
decodable as JSON, the latest-by-type map and the export surface it as a
degraded artifact `{"raw_content": <raw text>}` rather than discarding it;
the single-type latest-artifact endpoint, however, decodes without a
fallback and fails with an uncaught `JSONDecodeError` (HTTP 500) on such
content. -/
theorem c7_degraded_decoding_amended (db : DbState) (rid ty : String)
    (r : ArtifactRow)
    (hr : (sortByCreatedDesc (runArtifacts db rid)).find?
      (fun a => a.artifact_type = ty) = some r)
    (hbad : jsonLoads r.content_json = none) :
    mapGet (get_latest_artifacts_by_type db rid) ty =
      jobj [("raw_content", .str r.content_json)] ∧
    (∀ (now : Nat) (out : RunArtifactsExport),
      (export_artifacts db rid now).result = .ok out →
      ArtifactExportItem.mk r.artifact_type r.version r.created_at
        (jobj [("raw_content", .str r.content_json)]) ∈ out.artifacts) ∧
    (∀ (run : RunRow) (r' : ArtifactRow), db.findRun rid = some run →
      maxByCreated (artifactsFor db rid ty) = some r' →
      jsonLoads r'.content_json = none → ty ≠ "" →
      (get_latest_artifact db rid (some ty) none).result =
        .error (.uncaught "json.decoder.JSONDecodeError")) := by
  have hdec : decodeOrRaw r.content_json =
      jobj [("raw_content", .str r.content_json)] := by
    rw [decodeOrRaw, hbad]
  have hextract : _extract_artifact_only
      (jobj [("raw_content", .str r.content_json)]) =
      jobj [("raw_content", .str r.content_json)] := by
    simp [_extract_artifact_only, jobj, JObj.ofList, JObj.lookup?]
  refine ⟨?_, ?_, ?_⟩
  · simp [mapGet, latest_map_find db rid ty r hr, hdec]
  · intro now out hout
    have := export_item_mem db rid ty r hr now out hout
    rwa [hdec, hextract] at this
  · intro run r' hrun hmax hbad' hty
    simp [get_latest_artifact, hrun, hty, hmax, hbad']

/-- Witness for C7 (amended) on the concrete database `dbU`. -/
theorem c7_degraded_decoding_amended_witness :
    mapGet (get_latest_artifacts_by_type dbU "ru") "requirements" =
      jobj [("raw_content", .str "not json")] ∧
    (∀ (now : Nat) (out : RunArtifactsExport),
      (export_artifacts dbU "ru" now).result = .ok out →
      ArtifactExportItem.mk "requirements" 1 3
        (jobj [("raw_content", .str "not json")]) ∈ out.artifacts) ∧
    (∀ (run : RunRow) (r' : ArtifactRow), dbU.findRun "ru" = some run →
      maxByCreated (artifactsFor dbU "ru" "requirements") = some r' →
      jsonLoads r'.content_json = none → "requirements" ≠ "" →
      (get_latest_artifact dbU "ru" (some "requirements") none).result =
        .error (.uncaught "json.decoder.JSONDecodeError")) :=
  c7_degraded_decoding_amended dbU "ru" "requirements"
    ⟨1, "ru", "requirements", 1, "not json", 3⟩ (by decide) (by decide)

/-! ## Machinery for the post_step tail and the callback -/

theorem findExecution_updateExecution_self (db : DbState) (eid : Nat)
    (f : StepExecutionRow → StepExecutionRow) (hf : ∀ e, (f e).id = e.id) :
    (db.updateExecution eid f).findExecution eid =
      (db.findExecution eid).map f := by
  show (db.executions.map _).find? _ = (db.executions.find? _).map f
  induction db.executions with
  | nil => simp
  | cons e l ih =>
    by_cases h : e.id = eid
    · simp [h, List.find?, hf]
    · simp only [List.map_cons, if_neg h, List.find?]
      have : ((e.id = eid : Bool)) = false := by simpa using h
      simp [this, ih]

theorem updateExecution_runs (db : DbState) (eid : Nat)
    (f : StepExecutionRow → StepExecutionRow) :
    (db.updateExecution eid f).runs = db.runs := rfl

theorem updateExecution_artifacts (db : DbState) (eid : Nat)
    (f : StepExecutionRow → StepExecutionRow) :
    (db.updateExecution eid f).artifacts = db.artifacts := rfl

theorem addLog_runs (db : DbState) (eid : Nat) (msg : String) (now : Nat) :
    (db.addLog eid msg now).runs = db.runs := rfl

theorem addLog_artifacts (db : DbState) (eid : Nat) (msg : String) (now : Nat) :
    (db.addLog eid msg now).artifacts = db.artifacts := rfl

theorem addLog_executions (db : DbState) (eid : Nat) (msg : String) (now : Nat) :
    (db.addLog eid msg now).executions = db.executions := rfl

theorem findRun_addLog (db : DbState) (eid : Nat) (msg : String) (now rid) :
    (db.addLog eid msg now).findRun rid = db.findRun rid := rfl

theorem findRun_updateExecution (db : DbState) (eid : Nat)
    (f : StepExecutionRow → StepExecutionRow) (rid : String) :
    (db.updateExecution eid f).findRun rid = db.findRun rid := rfl

theorem findExecution_addLog (db : DbState) (eid' : Nat) (msg : String)
    (now eid : Nat) :
    (db.addLog eid' msg now).findExecution eid = db.findExecution eid := rfl

theorem findExecution_updateRun (db : DbState) (rid : String) (f : RunRow → RunRow)
    (eid : Nat) :
    (db.updateRun rid f).findExecution eid = db.findExecution eid := rfl

/-- The polling loop returns only artifacts whose version strictly exceeds
the baseline, and returns nothing once the deadline has elapsed (no views
left). -/
theorem wait_for_new_artifact_spec (rid ty : String) (minV : Nat) :
    (∀ (views : List (List ArtifactRow)) (a : ArtifactRow),
      Chat._wait_for_new_artifact rid ty minV views = some a → minV < a.version) ∧
    Chat._wait_for_new_artifact rid ty minV [] = none := by
  refine ⟨fun views => ?_, rfl⟩
  induction views with
  | nil => intro a h; simp [Chat._wait_for_new_artifact] at h
  | cons v rest ih =>
    intro a h
    rw [Chat._wait_for_new_artifact] at h
    cases hc : maxByVersion (v.filter (fun x => x.run_id = rid && x.artifact_type = ty)) with
    | none => simp only [hc] at h; exact ih a h
    | some c =>
      simp only [hc] at h
      by_cases hgt : c.version > minV
      · rw [if_pos hgt] at h
        cases h
        exact hgt
      · rw [if_neg hgt] at h
        exact ih a h

/-- The fallback phase: when the wait produced nothing and the trigger
response embeds a result, the extracted content is persisted verbatim as a
new artifact with version `latest+1` (computed over the post-wait state). -/
theorem post_step_fallback_spec (db8 : DbState) (rid ty : String) (eid : Nat)
    (resp c : Json) (now : Nat)
    (hext : Chat._extract_artifact_from_trigger_response (some resp) = some c) :
    (Chat.post_step_fallback db8 rid ty eid none resp now).2 = some
      ⟨db8.next_artifact_id, rid, ty, _get_latest_version db8 rid ty + 1,
        c.dumps, now⟩ ∧
    (Chat.post_step_fallback db8 rid ty eid none resp now).1.artifacts =
      db8.artifacts ++ [⟨db8.next_artifact_id, rid, ty,
        _get_latest_version db8 rid ty + 1, c.dumps, now⟩] ∧
    (Chat.post_step_fallback db8 rid ty eid none resp now).1.runs = db8.runs ∧
    (Chat.post_step_fallback db8 rid ty eid none resp now).1.executions =
      db8.executions := by
  simp [Chat.post_step_fallback, hext, Chat._save_artifact, DbState.addLog]

/-- And when the wait found an artifact the fallback phase is the identity. -/
theorem post_step_fallback_found (db8 : DbState) (rid ty : String) (eid : Nat)
    (a : ArtifactRow) (resp : Json) (now : Nat) :
    Chat.post_step_fallback db8 rid ty eid (some a) resp now = (db8, some a) := rfl

/-- Outcome of the post-trigger tail when an artifact was obtained (by wait
or by fallback): the execution is closed as COMPLETED and the run moves to
WAITING_APPROVAL_STEP_n with the user-decision flag raised; the current
position is whatever the wait phase left (the tail never touches it). -/
theorem post_step_awaiting_some (db7 db8 db9 : DbState) (run : RunRow)
    (req : Chat.PostStepReq) (sd : PipelineStep) (eid baseline : Nat)
    (resp : Json) (call : TriggerCall) (env : Chat.PostStepEnv)
    (w : Option ArtifactRow) (artifact : ArtifactRow)
    (hw : Chat.post_step_wait db7 run.id sd.artifact_type baseline env = (db8, w))
    (hfb : Chat.post_step_fallback db8 run.id sd.artifact_type eid w resp env.now =
      (db9, some artifact)) :
    (Chat.post_step_awaiting db7 run req sd eid baseline resp call env).result =
      .ok (Chat._build_agent_message req.step artifact
        (Chat._safe_json_loads artifact.content_json)) ∧
    (Chat.post_step_awaiting db7 run req sd eid baseline resp call env).triggered =
      [call] ∧
    (∀ r9, db9.findRun run.id = some r9 →
      (Chat.post_step_awaiting db7 run req sd eid baseline resp call env).db.findRun
        run.id = some
        { r9 with status := "WAITING_APPROVAL_STEP_" ++ toString req.step,
                  is_waiting_for_user := true, updated_at := env.now }) ∧
    (∀ e9, db9.findExecution eid = some e9 →
      (Chat.post_step_awaiting db7 run req sd eid baseline resp call env).db.findExecution
        eid = some
        { e9 with status := "COMPLETED",
                  response_message := some (Chat._build_agent_message req.step artifact
                    (Chat._safe_json_loads artifact.content_json)),
                  finished_at := some env.now }) ∧
    (Chat.post_step_awaiting db7 run req sd eid baseline resp call env).db.artifacts =
      db9.artifacts := by
  rw [Chat.post_step_awaiting]
  simp only [hw, hfb]
  refine ⟨by trivial, by trivial, ?_, ?_, by trivial⟩
  · intro r9 hr9
    rw [findRun_addLog, findRun_updateRun_self, findRun_updateExecution, hr9]
    all_goals first | rfl | exact fun r => rfl
  · intro e9 he9
    rw [findExecution_addLog, findExecution_updateRun,
      findExecution_updateExecution_self, he9]
    all_goals first | rfl | exact fun e => rfl

/-- Outcome of the post-trigger tail when neither the wait nor the fallback
produced an artifact: the execution is closed as TIMEOUT and the run moves
to TIMEOUT_STEP_n; no artifact is written. -/
theorem post_step_awaiting_none (db7 db8 db9 : DbState) (run : RunRow)
    (req : Chat.PostStepReq) (sd : PipelineStep) (eid baseline : Nat)
    (resp : Json) (call : TriggerCall) (env : Chat.PostStepEnv)
    (w : Option ArtifactRow)
    (hw : Chat.post_step_wait db7 run.id sd.artifact_type baseline env = (db8, w))
    (hfb : Chat.post_step_fallback db8 run.id sd.artifact_type eid w resp env.now =
      (db9, none)) :
    (Chat.post_step_awaiting db7 run req sd eid baseline resp call env).result =
      .ok (sd.name ++
        ": sigue en procesamiento. Intenta consultar logs y artifacts en unos segundos.") ∧
    (Chat.post_step_awaiting db7 run req sd eid baseline resp call env).triggered =
      [call] ∧
    (∀ r9, db9.findRun run.id = some r9 →
      (Chat.post_step_awaiting db7 run req sd eid baseline resp call env).db.findRun
        run.id = some
        { r9 with status := "TIMEOUT_STEP_" ++ toString req.step,
                  updated_at := env.now }) ∧
    (∀ e9, db9.findExecution eid = some e9 →
      (Chat.post_step_awaiting db7 run req sd eid baseline resp call env).db.findExecution
        eid = some
        { e9 with status := "TIMEOUT",
                  response_message := some (sd.name ++
                    ": sigue en procesamiento. Intenta consultar logs y artifacts en unos segundos."),
                  finished_at := some env.now }) ∧
    (Chat.post_step_awaiting db7 run req sd eid baseline resp call env).db.artifacts =
      db9.artifacts := by
  rw [Chat.post_step_awaiting]
  simp only [hw, hfb]
  refine ⟨by trivial, by trivial, ?_, ?_, by trivial⟩
  · intro r9 hr9
    rw [findRun_addLog, findRun_updateRun_self, findRun_updateExecution, hr9]
    all_goals first | rfl | exact fun r => rfl
  · intro e9 he9
    rw [findExecution_addLog, findExecution_updateRun,
      findExecution_updateExecution_self, he9]
    all_goals first | rfl | exact fun e => rfl

theorem nextVersion_eq (db : DbState) (rid ty : String) :
    (match maxByVersion (artifactsFor db rid ty) with
     | some last => last.version + 1
     | none => 1) = _get_latest_version db rid ty + 1 := by
  cases h : maxByVersion (artifactsFor db rid ty) <;> simp [_get_latest_version, h]

/-- Behaviour of `agent_callback` on a well-formed callback: the run moves to
`WAITING_APPROVAL_<SLUG>` with the callback agent as current position and the
user-decision flag raised, the (normalized) content is appended as a new
version of the agent's expected artifact type, and the most recent matching
execution — when one exists and is not already COMPLETED — is set to
`ARTIFACT_RECEIVED`, not to COMPLETED. -/
theorem agent_callback_spec (db : DbState) (slug : String)
    (bodyObj incoming content : JObj) (rid ty : String) (run : RunRow)
    (agent : AgentRow) (cstep : PipelineStep) (now : Nat)
    (hinc : (match bodyObj.lookup? "body" with
      | some (.obj inner) => inner | _ => bodyObj) = incoming)
    (hrid : incoming.lookup? "run_id" = some (.str rid)) (hridne : rid ≠ "")
    (hrun : db.findRun rid = some run)
    (hag : findAgentBySlug slug = some agent)
    (hstep : get_pipeline_step slug = some cstep)
    (hca : (match get_expected_artifact_type slug with
      | some t =>
        if t ≠ "" then t else
          match incoming.lookup? "artifact_type" with
          | some (.str s) => if s ≠ "" then s else "unknown"
          | _ => "unknown"
      | none =>
        match incoming.lookup? "artifact_type" with
        | some (.str s) => if s ≠ "" then s else "unknown"
        | _ => "unknown") = ty)
    (hcnt : (match incoming.lookup? "content" with
      | none | some .null => incoming.removeKeys ["run_id", "artifact_type"]
      | some (.obj c) => c
      | some other => JObj.ofList [("value", other)]) = content) :
    (agent_callback db slug (.obj bodyObj) now).result = .ok
      (jobj [("status", .str "ok"),
             ("message", .str "Artifact received, waiting for user approval")]) ∧
    (agent_callback db slug (.obj bodyObj) now).db.findRun rid = some
      { run with current_agent_id := some agent.id,
                 status := "WAITING_APPROVAL_" ++ pyUpper agent.slug,
                 is_waiting_for_user := true, updated_at := now } ∧
    (agent_callback db slug (.obj bodyObj) now).db.artifacts = db.artifacts ++
      [⟨db.next_artifact_id, run.id, ty, _get_latest_version db run.id ty + 1,
        (Json.obj (normalizeMermaidObj content)).dumps, now⟩] ∧
    (∀ exec0, maxByAttempt (db.executions.filter (fun e =>
        e.run_id = run.id && e.step = cstep.order && e.agent_slug = slug)) =
          some exec0 →
      exec0.status ≠ "COMPLETED" → db.findExecution exec0.id = some exec0 →
      (agent_callback db slug (.obj bodyObj) now).db.findExecution exec0.id =
        some { exec0 with status := "ARTIFACT_RECEIVED" }) := by
  have hpt : pyTruthy (Json.str rid) = true := by
    simp [pyTruthy, hridne]
  have hid : run.id = rid := findRun_id db rid run hrun
  have hca2 := hca
  simp only [ne_eq, ite_not] at hca2
  cases hmatch : maxByAttempt (db.executions.filter (fun e =>
      e.run_id = run.id && e.step = cstep.order && e.agent_slug = slug)) with
  | none =>
    refine ⟨?_, ?_, ?_, ?_⟩
    · simp [agent_callback, hinc, pyDictGet, hrid, hpt, hrun, hag, hstep, hca,
        hcnt, hmatch, Orchestrator._save_artifact, nextVersion_eq]
    · simp only [agent_callback, hinc, pyDictGet, hrid, Option.getD_some, hpt,
        Bool.not_true, Bool.false_eq_true, not_false_eq_true, if_true,
        not_true, if_false, Option.some_bind, hrun, hag, hstep, hca, hcnt,
        Orchestrator._save_artifact, nextVersion_eq, hmatch]
      try rw [hid]
      rw [findRun_updateRun_self]
      · show ((db.findRun rid).map _) = _
        rw [hrun]
        simp [hid]
      · exact fun r => rfl
    · simp [agent_callback, hinc, pyDictGet, hrid, hpt, hrun, hag, hstep, hca,
        hca2, hcnt, hmatch, Orchestrator._save_artifact, nextVersion_eq,
        DbState.updateRun]
    · intro exec0 hmax
      cases hmax
  | some execution =>
    by_cases hcompl : execution.status ≠ "COMPLETED"
    · refine ⟨?_, ?_, ?_, ?_⟩
      · simp [agent_callback, hinc, pyDictGet, hrid, hpt, hrun, hag, hstep, hca,
          hcnt, hmatch, hcompl, Orchestrator._save_artifact, nextVersion_eq]
      · simp only [agent_callback, hinc, pyDictGet, hrid, Option.getD_some, hpt,
          Bool.not_true, Bool.false_eq_true, not_false_eq_true, if_true,
          not_true, if_false, Option.some_bind, hrun, hag, hstep, hca, hcnt,
          Orchestrator._save_artifact, nextVersion_eq, hmatch, if_pos hcompl]
        try rw [hid]
        rw [findRun_updateRun_self]
        · show ((db.findRun rid).map _) = _
          rw [hrun]
          simp [hid]
        · exact fun r => rfl
      · simp [agent_callback, hinc, pyDictGet, hrid, hpt, hrun, hag, hstep, hca,
          hca2, hcnt, hmatch, hcompl, Orchestrator._save_artifact, nextVersion_eq,
          DbState.updateRun, DbState.updateExecution, DbState.addLog]
      · intro exec0 hmax hst hfe
        cases hmax
        simp only [agent_callback, hinc, pyDictGet, hrid, Option.getD_some, hpt,
          Bool.not_true, Bool.false_eq_true, not_false_eq_true, if_true,
          not_true, if_false, Option.some_bind, hrun, hag, hstep, hca, hcnt,
          Orchestrator._save_artifact, nextVersion_eq, hmatch, if_pos hcompl]
        rw [findExecution_updateRun, findExecution_addLog,
          findExecution_updateExecution_self]
        · show ((db.findExecution execution.id).map _) = _
          rw [hfe]
          rfl
        · exact fun e => rfl
    · refine ⟨?_, ?_, ?_, ?_⟩
      · simp [agent_callback, hinc, pyDictGet, hrid, hpt, hrun, hag, hstep, hca,
          hcnt, hmatch, hcompl, Orchestrator._save_artifact, nextVersion_eq]
      · simp only [agent_callback, hinc, pyDictGet, hrid, Option.getD_some, hpt,
          Bool.not_true, Bool.false_eq_true, not_false_eq_true, if_true,
          not_true, if_false, Option.some_bind, hrun, hag, hstep, hca, hcnt,
          Orchestrator._save_artifact, nextVersion_eq, hmatch, if_neg hcompl]
        try rw [hid]
        rw [findRun_updateRun_self]
        · show ((db.findRun rid).map _) = _
          rw [hrun]
          simp [hid]
        · exact fun r => rfl
      · simp [agent_callback, hinc, pyDictGet, hrid, hpt, hrun, hag, hstep, hca,
          hca2, hcnt, hmatch, hcompl, Orchestrator._save_artifact, nextVersion_eq,
          DbState.updateRun, DbState.addLog]
      · intro exec0 hmax hst _
        cases hmax
        exact absurd hst hcompl

/-! ## Claim C4 — result arrival -/

/-- Counterexample to C4 as stated: in the reachable state `dbD` a
new-version artifact of the expected type appeared during the synchronous
request (the fallback of the wait protocol, version 1 over baseline 0), the
run did move to `WAITING_APPROVAL_STEP_1` with `awaiting_user_decision` true
and the execution to COMPLETED — but the run's current position is null, not
"set to that step", refuting that conjunct of the claim. -/
theorem c4_result_arrival_counterexample :
    dbD.artifacts.map (fun a => (a.artifact_type, a.version)) =
      [("requirements", 1)] ∧
    (dbD.findRun "r9").map (·.status) = some "WAITING_APPROVAL_STEP_1" ∧
    (dbD.findRun "r9").map (·.is_waiting_for_user) = some true ∧
    dbD.executions.map (·.status) = ["COMPLETED"] ∧
    (dbD.findRun "r9").map (·.current_agent_id) = some none := by
  decide

/-- C4 (amended): result arrival has two shapes.  (1) Via callback:
`agent_callback` moves the run to `WAITING_APPROVAL_<SLUG>` with the callback
agent as current position and `awaiting_user_decision` true, appends the new
artifact version, and sets the most recent matching execution (when present
and not already COMPLETED) to `ARTIFACT_RECEIVED` — not to COMPLETED.
(2) Via the synchronous wait of the chat step endpoint: the run moves to
`WAITING_APPROVAL_STEP_n` with `awaiting_user_decision` true and the opened
execution is closed as COMPLETED, but the tail never writes the current
position — it keeps whatever the wait phase left, which on the pure-fallback
path is the null position set when the trigger was issued. -/
theorem c4_result_arrival_amended :
    (∀ (db : DbState) (slug : String) (bodyObj incoming content : JObj)
        (rid ty : String) (run : RunRow) (agent : AgentRow)
        (cstep : PipelineStep) (now : Nat),
      (match bodyObj.lookup? "body" with
        | some (.obj inner) => inner | _ => bodyObj) = incoming →
      incoming.lookup? "run_id" = some (.str rid) → rid ≠ "" →
      db.findRun rid = some run →
      findAgentBySlug slug = some agent →
      get_pipeline_step slug = some cstep →
      (match get_expected_artifact_type slug with
        | some t =>
          if t ≠ "" then t else
            match incoming.lookup? "artifact_type" with
            | some (.str s) => if s ≠ "" then s else "unknown"
            | _ => "unknown"
        | none =>
          match incoming.lookup? "artifact_type" with
          | some (.str s) => if s ≠ "" then s else "unknown"
          | _ => "unknown") = ty →
      (match incoming.lookup? "content" with
        | none | some .null => incoming.removeKeys ["run_id", "artifact_type"]
        | some (.obj c) => c
        | some other => JObj.ofList [("value", other)]) = content →
      (agent_callback db slug (.obj bodyObj) now).db.findRun rid = some
        { run with current_agent_id := some agent.id,
                   status := "WAITING_APPROVAL_" ++ pyUpper agent.slug,
                   is_waiting_for_user := true, updated_at := now } ∧
      (agent_callback db slug (.obj bodyObj) now).db.artifacts = db.artifacts ++
        [⟨db.next_artifact_id, run.id, ty, _get_latest_version db run.id ty + 1,
          (Json.obj (normalizeMermaidObj content)).dumps, now⟩] ∧
      (∀ exec0, maxByAttempt (db.executions.filter (fun e =>
          e.run_id = run.id && e.step = cstep.order && e.agent_slug = slug)) =
            some exec0 →
        exec0.status ≠ "COMPLETED" → db.findExecution exec0.id = some exec0 →
        (agent_callback db slug (.obj bodyObj) now).db.findExecution exec0.id =
          some { exec0 with status := "ARTIFACT_RECEIVED" })) ∧
    (∀ (db7 db8 db9 : DbState) (run : RunRow) (req : Chat.PostStepReq)
        (sd : PipelineStep) (eid baseline : Nat) (resp : Json)
        (call : TriggerCall) (env : Chat.PostStepEnv) (w : Option ArtifactRow)
        (artifact : ArtifactRow),
      Chat.post_step_wait db7 run.id sd.artifact_type baseline env = (db8, w) →
      Chat.post_step_fallback db8 run.id sd.artifact_type eid w resp env.now =
        (db9, some artifact) →
      (Chat.post_step_awaiting db7 run req sd eid baseline resp call env).result =
        .ok (Chat._build_agent_message req.step artifact
          (Chat._safe_json_loads artifact.content_json)) ∧
      (∀ r9, db9.findRun run.id = some r9 →
        (Chat.post_step_awaiting db7 run req sd eid baseline resp call
          env).db.findRun run.id = some
          { r9 with status := "WAITING_APPROVAL_STEP_" ++ toString req.step,
                    is_waiting_for_user := true, updated_at := env.now }) ∧
      (∀ e9, db9.findExecution eid = some e9 →
        (Chat.post_step_awaiting db7 run req sd eid baseline resp call
          env).db.findExecution eid = some
          { e9 with status := "COMPLETED",
                    response_message := some (Chat._build_agent_message req.step
                      artifact (Chat._safe_json_loads artifact.content_json)),
                    finished_at := some env.now })) := by
  constructor
  · intro db slug bodyObj incoming content rid ty run agent cstep now
      hinc hrid hridne hrun hag hstep hca hcnt
    obtain ⟨_, h2, h3, h4⟩ := agent_callback_spec db slug bodyObj incoming
      content rid ty run agent cstep now hinc hrid hridne hrun hag hstep hca hcnt
    exact ⟨h2, h3, h4⟩
  · intro db7 db8 db9 run req sd eid baseline resp call env w artifact hw hfb
    obtain ⟨h1, _, h3, h4, _⟩ := post_step_awaiting_some db7 db8 db9 run req sd
      eid baseline resp call env w artifact hw hfb
    exact ⟨h1, h3, h4⟩

/-- Witness for C4 (amended): part (1) at the reachable state `dbA` with a
concrete callback, part (2) at a concrete post-trigger state whose wait
misses and whose fallback synthesizes the artifact. -/
theorem c4_result_arrival_amended_witness :
    ((agent_callback dbA "requirements" (.obj bodyObjB) 1).db.findRun "r1" = some
      { runA with current_agent_id := some agReq.id,
                  status := "WAITING_APPROVAL_" ++ pyUpper agReq.slug,
                  is_waiting_for_user := true, updated_at := 1 } ∧
    (agent_callback dbA "requirements" (.obj bodyObjB) 1).db.artifacts =
      dbA.artifacts ++
      [⟨dbA.next_artifact_id, runA.id, "requirements",
        _get_latest_version dbA runA.id "requirements" + 1,
        (Json.obj (normalizeMermaidObj contentB)).dumps, 1⟩] ∧
    (∀ exec0, maxByAttempt (dbA.executions.filter (fun e =>
        e.run_id = runA.id && e.step = stepReq.order &&
        e.agent_slug = "requirements")) = some exec0 →
      exec0.status ≠ "COMPLETED" → dbA.findExecution exec0.id = some exec0 →
      (agent_callback dbA "requirements" (.obj bodyObjB) 1).db.findExecution
        exec0.id = some { exec0 with status := "ARTIFACT_RECEIVED" })) ∧
    ((Chat.post_step_awaiting db7W runS reqW stepReq 1 0 respW callW envW).result =
      .ok (Chat._build_agent_message reqW.step artW
        (Chat._safe_json_loads artW.content_json)) ∧
    (∀ r9, db9W.findRun runS.id = some r9 →
      (Chat.post_step_awaiting db7W runS reqW stepReq 1 0 respW callW
        envW).db.findRun runS.id = some
        { r9 with status := "WAITING_APPROVAL_STEP_" ++ toString reqW.step,
                  is_waiting_for_user := true, updated_at := envW.now }) ∧
    (∀ e9, db9W.findExecution 1 = some e9 →
      (Chat.post_step_awaiting db7W runS reqW stepReq 1 0 respW callW
        envW).db.findExecution 1 = some
        { e9 with status := "COMPLETED",
                  response_message := some (Chat._build_agent_message reqW.step
                    artW (Chat._safe_json_loads artW.content_json)),
                  finished_at := some envW.now })) :=
  ⟨(c4_result_arrival_amended.1 dbA "requirements" bodyObjB bodyObjB contentB
      "r1" "requirements" runA agReq stepReq 1 (by decide) (by decide)
      (by decide) (by decide) (by decide) (by decide) (by decide) (by decide)),
   (c4_result_arrival_amended.2 db7W db7W db9W runS reqW stepReq 1 0 respW
      callW envW none artW (by decide) (by decide))⟩

/-! ## Claim C5 — run invariant over reachable states -/

theorem StepOK.refl {db : DbState} : StepOK db db :=
  ⟨fun r' hr' hw' => Or.inl ⟨r', hr', rfl, hw'⟩, fun _ ha => ha⟩

theorem StepOK.of_eq {db db' : DbState} (h : db' = db) : StepOK db db' := by
  subst h; exact StepOK.refl

theorem StepOK.trans {db db' db'' : DbState} (h1 : StepOK db db')
    (h2 : StepOK db' db'') : StepOK db db'' := by
  refine ⟨?_, fun a ha => h2.2 a (h1.2 a ha)⟩
  intro r'' hr'' hw''
  rcases h2.1 r'' hr'' hw'' with ⟨r', hr', hid', hw'⟩ | ⟨a, ha, haid⟩
  · rcases h1.1 r' hr' hw' with ⟨r, hr, hid, hw⟩ | ⟨a, ha, haid⟩
    · exact Or.inl ⟨r, hr, by rw [hid, hid'], hw⟩
    · exact Or.inr ⟨a, h2.2 a ha, by rw [haid, hid']⟩
  · exact Or.inr ⟨a, ha, haid⟩

/-- Runs-preserving database changes are always sound. -/
theorem StepOK.runsEq {db db' : DbState} (hruns : db'.runs = db.runs)
    (harts : ∀ a ∈ db.artifacts, a ∈ db'.artifacts) : StepOK db db' := by
  refine ⟨?_, harts⟩
  intro r' hr' hw'
  rw [hruns] at hr'
  exact Or.inl ⟨r', hr', rfl, hw'⟩

/-- A run update is sound when it preserves ids and either cannot raise the
waiting flag or is justified by an artifact for the touched run id. -/
theorem StepOK.updateAppend {db db' : DbState} (rid : String) (f : RunRow → RunRow)
    (hruns : db'.runs = (db.updateRun rid f).runs)
    (hid : ∀ r, (f r).id = r.id)
    (harts : ∀ a ∈ db.artifacts, a ∈ db'.artifacts)
    (hcase : (∀ r, (f r).is_waiting_for_user = true →
        r.is_waiting_for_user = true) ∨ (∃ a ∈ db'.artifacts, a.run_id = rid)) :
    StepOK db db' := by
  refine ⟨?_, harts⟩
  intro r' hr' hw'
  rw [hruns] at hr'
  show _ ∨ _
  obtain ⟨r, hr, hre⟩ := List.mem_map.mp hr'
  by_cases hrid : r.id = rid
  · rw [if_pos hrid] at hre
    rcases hcase with himp | ⟨a, ha, haid⟩
    · exact Or.inl ⟨r, hr, by rw [← hre, hid], himp r (hre ▸ hw')⟩
    · exact Or.inr ⟨a, ha, by rw [haid, ← hrid, ← hid r, hre]⟩
  · rw [if_neg hrid] at hre
    exact Or.inl ⟨r, hr, by rw [hre], hre ▸ hw'⟩

/-- Appending a non-waiting run is sound. -/
theorem StepOK.addRun {db db' : DbState} (newRun : RunRow)
    (hruns : db'.runs = db.runs ++ [newRun])
    (hw : newRun.is_waiting_for_user = false)
    (harts : ∀ a ∈ db.artifacts, a ∈ db'.artifacts) : StepOK db db' := by
  refine ⟨?_, harts⟩
  intro r' hr' hw'
  rw [hruns] at hr'
  rcases List.mem_append.mp hr' with h | h
  · exact Or.inl ⟨r', h, rfl, hw'⟩
  · rcases List.mem_singleton.mp h with rfl
    rw [hw] at hw'
    cases hw'

theorem stepOK_create_run (db : DbState) (domain brief run_id : String) (now : Nat) :
    StepOK db (create_run db domain brief run_id now).db := by
  unfold create_run
  split
  · exact StepOK.refl
  · split
    · exact StepOK.refl
    · split
      · exact StepOK.refl
      · exact StepOK.addRun _ rfl rfl (fun a ha => ha)

theorem stepOK_create_artifact (db : DbState) (run_id : String)
    (body : ArtifactCreateReq) (now : Nat) :
    StepOK db (create_artifact db run_id body now).db := by
  unfold create_artifact
  dsimp only []
  repeat' split
  all_goals
    first
      | exact StepOK.refl
      | exact StepOK.updateAppend run_id _ rfl (fun r => rfl)
          (fun a ha => List.mem_append_left _ ha)
          (Or.inr ⟨_, List.mem_append_right _ (List.mem_singleton.mpr rfl), rfl⟩)

theorem stepOK_approve_run (db : DbState) (run_id : String) (now : Nat) :
    StepOK db (approve_run db run_id now).db := by
  unfold approve_run
  dsimp only []
  repeat' split
  all_goals
    first
      | exact StepOK.refl
      | exact StepOK.updateAppend run_id _ rfl (fun r => rfl) (fun a ha => ha)
          (Or.inl fun r h => (Bool.false_ne_true h).elim)

theorem stepOK_reject_run (db : DbState) (run_id feedback : String) (now : Nat) :
    StepOK db (reject_run db run_id feedback now).db := by
  unfold reject_run
  dsimp only []
  repeat' split
  all_goals
    first
      | exact StepOK.refl
      | exact StepOK.updateAppend run_id _ rfl (fun r => rfl) (fun a ha => ha)
          (Or.inl fun r h => (Bool.false_ne_true h).elim)

theorem stepOK_agent_callback (db : DbState) (agent_slug : String) (body : Json)
    (now : Nat) : StepOK db (agent_callback db agent_slug body now).db := by
  unfold agent_callback Orchestrator._save_artifact
  dsimp only []
  repeat' split
  all_goals
    first
      | exact StepOK.refl
      | exact StepOK.updateAppend _ _ rfl (fun r => rfl)
          (fun a ha => List.mem_append_left _ ha)
          (Or.inr ⟨_, List.mem_append_right _ (List.mem_singleton.mpr rfl), rfl⟩)

theorem wait_mem (rid ty : String) (minV : Nat) :
    ∀ (views : List (List ArtifactRow)) (a : ArtifactRow),
      Chat._wait_for_new_artifact rid ty minV views = some a →
      a.run_id = rid ∧ ∃ v ∈ views, a ∈ v := by
  intro views
  induction views with
  | nil => intro a h; simp [Chat._wait_for_new_artifact] at h
  | cons view rest ih =>
    intro a h
    rw [Chat._wait_for_new_artifact] at h
    split at h
    · split at h
      · next cand hm hv =>
        cases h
        obtain ⟨hmem, -⟩ := maxByVersion_spec hm
        obtain ⟨hin, hp⟩ := List.mem_filter.mp hmem
        simp only [Bool.and_eq_true, decide_eq_true_eq] at hp
        exact ⟨hp.1, view, List.mem_cons_self _ _, hin⟩
      · obtain ⟨h1, v, hv1, hv2⟩ := ih a h
        exact ⟨h1, v, List.mem_cons_of_mem _ hv1, hv2⟩
    · obtain ⟨h1, v, hv1, hv2⟩ := ih a h
      exact ⟨h1, v, List.mem_cons_of_mem _ hv1, hv2⟩

theorem stepOK_post_step_wait (db7 : DbState) (rid ty : String) (baseline : Nat)
    (env : Chat.PostStepEnv) :
    StepOK db7 (Chat.post_step_wait db7 rid ty baseline env).1 := by
  unfold Chat.post_step_wait
  cases henv : env.duringWait with
  | none => simp only [henv]; exact StepOK.refl
  | some p =>
    obtain ⟨s, b⟩ := p
    simp only [henv]
    exact stepOK_agent_callback db7 s b env.now

theorem post_step_wait_mem (db7 : DbState) (rid ty : String) (baseline : Nat)
    (env : Chat.PostStepEnv) (a : ArtifactRow)
    (h : (Chat.post_step_wait db7 rid ty baseline env).2 = some a) :
    a.run_id = rid ∧ a ∈ (Chat.post_step_wait db7 rid ty baseline env).1.artifacts := by
  unfold Chat.post_step_wait at h ⊢
  cases henv : env.duringWait with
  | none =>
    simp only [henv] at h ⊢
    obtain ⟨h1, v, hv, hav⟩ := wait_mem rid ty baseline _ a h
    simp only [List.mem_singleton] at hv
    exact ⟨h1, hv ▸ hav⟩
  | some p =>
    obtain ⟨s, b⟩ := p
    simp only [henv] at h ⊢
    obtain ⟨h1, v, hv, hav⟩ := wait_mem rid ty baseline _ a h
    rcases List.mem_cons.mp hv with h2 | h2
    · exact ⟨h1, (stepOK_agent_callback db7 s b env.now).2 a (h2 ▸ hav)⟩
    · have h3 : v = (agent_callback db7 s b env.now).db.artifacts := by
        simpa using h2
      exact ⟨h1, h3 ▸ hav⟩

theorem post_step_fallback_cases (db8 : DbState) (rid ty : String) (eid : Nat)
    (waited : Option ArtifactRow) (resp : Json) (now : Nat) :
    StepOK db8 (Chat.post_step_fallback db8 rid ty eid waited resp now).1 ∧
    ∀ a, (Chat.post_step_fallback db8 rid ty eid waited resp now).2 = some a →
      (waited = some a ∧
        (Chat.post_step_fallback db8 rid ty eid waited resp now).1 = db8) ∨
      (a.run_id = rid ∧
        a ∈ (Chat.post_step_fallback db8 rid ty eid waited resp now).1.artifacts) := by
  unfold Chat.post_step_fallback Chat._save_artifact
  cases waited with
  | some a0 =>
    exact ⟨StepOK.refl, fun a h => Or.inl ⟨h, rfl⟩⟩
  | none =>
    cases hx : Chat._extract_artifact_from_trigger_response (some resp) with
    | none =>
      simp only [hx]
      exact ⟨StepOK.refl, fun a h => by cases h⟩
    | some fc =>
      simp only [hx]
      refine ⟨StepOK.runsEq rfl (fun a ha => List.mem_append_left _ ha), ?_⟩
      intro a h
      cases h
      exact Or.inr ⟨rfl, List.mem_append_right _ (List.mem_singleton.mpr rfl)⟩

/-- Two sequential run updates of the same run are sound when the composite
preserves ids and either cannot raise the waiting flag or is justified by an
artifact for the touched run id. -/
theorem StepOK.settle {db db' : DbState} (rid : String) (f g : RunRow → RunRow)
    (hruns : db'.runs = ((db.updateRun rid f).updateRun rid g).runs)
    (hidf : ∀ r, (f r).id = r.id) (hidg : ∀ r, (g r).id = r.id)
    (harts : ∀ a ∈ db.artifacts, a ∈ db'.artifacts)
    (hcase : (∀ r, (g (f r)).is_waiting_for_user = true →
        r.is_waiting_for_user = true) ∨ (∃ a ∈ db'.artifacts, a.run_id = rid)) :
    StepOK db db' := by
  refine ⟨?_, harts⟩
  intro r' hr' hw'
  rw [hruns] at hr'
  show _ ∨ _
  obtain ⟨r1, hr1, hre1⟩ := List.mem_map.mp hr'
  obtain ⟨r, hr, hre⟩ := List.mem_map.mp hr1
  by_cases hrid : r.id = rid
  · rw [if_pos hrid] at hre
    have h1 : r1.id = rid := by rw [← hre, hidf, hrid]
    rw [if_pos h1] at hre1
    rcases hcase with himp | ⟨a, ha, haid⟩
    · refine Or.inl ⟨r, hr, ?_, himp r ?_⟩
      · rw [← hre1, hidg, ← hre, hidf]
      · rw [hre, hre1]; exact hw'
    · exact Or.inr ⟨a, ha, by rw [haid, ← h1, ← hidg r1, hre1]⟩
  · rw [if_neg hrid] at hre
    subst hre
    rw [if_neg hrid] at hre1
    exact Or.inl ⟨r, hr, by rw [hre1], hre1 ▸ hw'⟩

theorem stepOK_post_step_awaiting (db7 : DbState) (run : RunRow)
    (req : Chat.PostStepReq) (sd : PipelineStep) (eid bv : Nat) (resp : Json)
    (call : TriggerCall) (env : Chat.PostStepEnv) :
    StepOK db7 (Chat.post_step_awaiting db7 run req sd eid bv resp call env).db := by
  unfold Chat.post_step_awaiting
  rcases hpw : Chat.post_step_wait db7 run.id sd.artifact_type bv env with ⟨db8, waited⟩
  have hS1 : StepOK db7 db8 := by
    have h := stepOK_post_step_wait db7 run.id sd.artifact_type bv env
    rw [hpw] at h; exact h
  have hwm : ∀ a, waited = some a → a.run_id = run.id ∧ a ∈ db8.artifacts := by
    intro a ha
    have h := post_step_wait_mem db7 run.id sd.artifact_type bv env a
      (by rw [hpw]; exact ha)
    rw [hpw] at h; exact h
  rcases hfb : Chat.post_step_fallback db8 run.id sd.artifact_type eid waited
      resp env.now with ⟨db9, artQ⟩
  have hfc := post_step_fallback_cases db8 run.id sd.artifact_type eid waited
    resp env.now
  rw [hfb] at hfc
  simp only [hpw, hfb]
  cases artQ with
  | none =>
    refine StepOK.trans (StepOK.trans hS1 hfc.1) ?_
    exact StepOK.updateAppend run.id _ rfl (fun r => rfl) (fun a ha => ha)
      (Or.inl fun r h => h)
  | some artifact =>
    refine StepOK.trans (StepOK.trans hS1 hfc.1) ?_
    refine StepOK.updateAppend run.id _ rfl (fun r => rfl) (fun a ha => ha)
      (Or.inr ?_)
    rcases hfc.2 artifact rfl with ⟨hw, h9⟩ | ⟨h1, h2⟩
    · obtain ⟨h1, h2⟩ := hwm artifact hw
      have h9x : db9 = db8 := h9
      exact ⟨artifact, by rw [h9x]; exact h2, h1⟩
    · exact ⟨artifact, h2, h1⟩

theorem stepOK_post_step_go (db2 : DbState) (run : RunRow) (req : Chat.PostStepReq)
    (sd : PipelineStep) (ft : String) (cp : Json) (env : Chat.PostStepEnv) :
    StepOK db2 (Chat.post_step_go db2 run req sd ft cp env).db := by
  unfold Chat.post_step_go
  dsimp only []
  split
  · exact StepOK.settle run.id _ _ rfl (fun r => rfl) (fun r => rfl)
      (fun a ha => ha) (Or.inl fun r h => (Bool.false_ne_true h).elim)
  · split
    · exact StepOK.settle run.id _ _ rfl (fun r => rfl) (fun r => rfl)
        (fun a ha => ha) (Or.inl fun r h => (Bool.false_ne_true h).elim)
    · refine StepOK.trans ?_ (stepOK_post_step_awaiting _ _ _ _ _ _ _ _ _)
      exact StepOK.updateAppend run.id _ rfl (fun r => rfl) (fun a ha => ha)
        (Or.inl fun r h => (Bool.false_ne_true h).elim)

theorem stepOK_get_or_create (db : DbState) (rid ic : String) (now : Nat)
    (db1 : DbState) (run0 : RunRow)
    (h : Chat._get_or_create_run db rid ic now = .ok (db1, run0)) :
    StepOK db db1 := by
  unfold Chat._get_or_create_run at h
  cases hfr : db.findRun rid <;> simp only [hfr] at h
  · split at h
    · cases h
    · cases h
      exact StepOK.addRun _ rfl rfl (fun a ha => ha)
  · cases h
    exact StepOK.refl

theorem stepOK_post_step (db : DbState) (req : Chat.PostStepReq)
    (env : Chat.PostStepEnv) : StepOK db (Chat.post_step db req env).db := by
  unfold Chat.post_step
  by_cases hv : ¬(1 ≤ req.step ∧ req.step ≤ 6 ∧ 1 ≤ pyLen req.uuid ∧
      pyLen req.uuid ≤ 128)
  · rw [if_pos hv]; exact StepOK.refl
  · rw [if_neg hv]
    cases hsd : get_pipeline_step_by_order req.step with
    | none => exact StepOK.refl
    | some sd =>
      simp only [hsd]
      try dsimp only []
      cases hgc : Chat._get_or_create_run db req.uuid
          (if req.step = 1 ∧ ¬req.is_feedback then pyStrip req.context else "")
          env.now with
      | error e => simp only [hgc]; exact StepOK.refl
      | ok p =>
        obtain ⟨db1, run0⟩ := p
        simp only [hgc]
        have h01 : StepOK db db1 := stepOK_get_or_create _ _ _ _ _ _ hgc
        try dsimp only []
        by_cases hbr : req.step = 1 ∧ ¬req.is_feedback = true ∧
            pyStrip req.context ≠ ""
        · rw [if_pos hbr]
          try dsimp only []
          have h12 : StepOK db1 (db1.updateRun run0.id (fun r =>
              { r with brief := pyStrip req.context })) :=
            StepOK.updateAppend run0.id _ rfl (fun r => rfl) (fun a ha => ha)
              (Or.inl fun r h => h)
          by_cases hfb : req.is_feedback = true
          · rw [if_pos hfb, if_pos hfb]
            by_cases hfe : pyStrip req.context = ""
            · rw [if_pos hfe]
              exact StepOK.trans h01 h12
            · rw [if_neg hfe]
              cases hmx : maxByVersion (artifactsFor
                  (db1.updateRun run0.id (fun r =>
                    { r with brief := pyStrip req.context }))
                  run0.id sd.artifact_type) with
              | none => simp only [hmx]; exact StepOK.trans h01 h12
              | some prev =>
                simp only [hmx]
                exact StepOK.trans (StepOK.trans h01 h12)
                  (stepOK_post_step_go _ _ _ _ _ _ _)
          · rw [if_neg hfb, if_neg hfb]
            by_cases hs1 : req.step = 1
            · rw [if_pos hs1]
              by_cases hc0 : pyStrip req.context = ""
              · rw [if_pos hc0]
                exact StepOK.trans h01 h12
              · rw [if_neg hc0]
                exact StepOK.trans (StepOK.trans h01 h12)
                  (stepOK_post_step_go _ _ _ _ _ _ _)
            · rw [if_neg hs1]
              exact StepOK.trans (StepOK.trans h01 h12)
                (stepOK_post_step_go _ _ _ _ _ _ _)
        · rw [if_neg hbr]
          try dsimp only []
          by_cases hfb : req.is_feedback = true
          · rw [if_pos hfb, if_pos hfb]
            by_cases hfe : pyStrip req.context = ""
            · rw [if_pos hfe]
              exact h01
            · rw [if_neg hfe]
              cases hmx : maxByVersion (artifactsFor db1 run0.id
                  sd.artifact_type) with
              | none => simp only [hmx]; exact h01
              | some prev =>
                simp only [hmx]
                exact StepOK.trans h01 (stepOK_post_step_go _ _ _ _ _ _ _)
          · rw [if_neg hfb, if_neg hfb]
            by_cases hs1 : req.step = 1
            · rw [if_pos hs1]
              by_cases hc0 : pyStrip req.context = ""
              · rw [if_pos hc0]
                exact h01
              · rw [if_neg hc0]
                exact StepOK.trans h01 (stepOK_post_step_go _ _ _ _ _ _ _)
            · rw [if_neg hs1]
              exact StepOK.trans h01 (stepOK_post_step_go _ _ _ _ _ _ _)

theorem stepOK_applyOp (db : DbState) (op : Op) : StepOK db (applyOp db op) := by
  cases op with
  | opCreateRun d b r n => exact stepOK_create_run db d b r n
  | opAgentCallback s b n => exact stepOK_agent_callback db s b n
  | opCreateArtifact r b n => exact stepOK_create_artifact db r b n
  | opApprove r n => exact stepOK_approve_run db r n
  | opReject r f n => exact stepOK_reject_run db r f n
  | opPostStep req env => exact stepOK_post_step db req env

/-- C5, counterexample.  The claimed invariant fails: `dbD` is reachable from
the empty database in one public operation (a step request answered through
the synchronous-fallback path), its run has `awaiting_user_decision` true,
yet its current position (`current_agent_id`) is null, because `post_step`
clears the position before waiting and never restores it. -/
theorem c5_run_invariant_counterexample :
    Reachable dbD ∧
      (dbD.findRun "r9").map
        (fun r => (r.is_waiting_for_user, r.current_agent_id)) =
        some (true, none) :=
  ⟨Reachable.step _ _ Reachable.init, by decide⟩

/-- C5, amended.  In every state reachable through the public operations,
every run with `awaiting_user_decision` true has at least one stored
artifact (the current position, however, may be null, and the artifact's
type is not tied to the position). -/
theorem c5_run_invariant_amended :
    ∀ db, Reachable db → ∀ r ∈ db.runs, r.is_waiting_for_user = true →
      ∃ a ∈ db.artifacts, a.run_id = r.id := by
  intro db h
  induction h with
  | init => intro r hr; simp [DbState.init] at hr
  | step db0 op h0 ih =>
    intro r' hr' hw'
    have hs := stepOK_applyOp db0 op
    rcases hs.1 r' hr' hw' with ⟨r, hr0, hid0, hw0⟩ | ⟨a, ha, haid⟩
    · obtain ⟨a, ha, haid⟩ := ih r hr0 hw0
      exact ⟨a, hs.2 a ha, by rw [haid, hid0]⟩
    · exact ⟨a, ha, haid⟩

theorem c5_run_invariant_amended_witness :
    Reachable dbB ∧ runB1 ∈ dbB.runs ∧ runB1.is_waiting_for_user = true ∧
      ∃ a ∈ dbB.artifacts, a.run_id = runB1.id := by
  have hreach : Reachable dbB :=
    Reachable.step _ _ (Reachable.step _ _ Reachable.init)
  exact ⟨hreach, by decide, by decide,
    c5_run_invariant_amended dbB hreach runB1 (by decide) (by decide)⟩

theorem maxByVersion_isSome {l : List ArtifactRow} (h : l ≠ []) :
    (maxByVersion l).isSome := by
  rw [maxByVersion_eq_argmax, Option.isSome_iff_ne_none]
  intro hn
  exact h (List.argmax_eq_none.mp hn)

theorem wait_none_view (rid ty : String) (minV : Nat) (v : List ArtifactRow)
    (rest : List (List ArtifactRow))
    (h : Chat._wait_for_new_artifact rid ty minV (v :: rest) = none) :
    (∀ c, maxByVersion (v.filter (fun a =>
        a.run_id = rid && a.artifact_type = ty)) = some c → ¬ minV < c.version) ∧
    Chat._wait_for_new_artifact rid ty minV rest = none := by
  rw [Chat._wait_for_new_artifact] at h
  cases hm : maxByVersion (v.filter (fun a =>
      a.run_id = rid && a.artifact_type = ty)) with
  | none =>
    simp only [hm] at h
    exact ⟨fun c hc => Option.noConfusion hc, h⟩
  | some c0 =>
    simp only [hm] at h
    by_cases hv : c0.version > minV
    · rw [if_pos hv] at h; cases h
    · rw [if_neg hv] at h
      refine ⟨fun c hc => ?_, h⟩
      cases hc
      exact hv

/-- After any agent callback the artifact table is unchanged or extended by
exactly one row whose version is one above the previous latest for its
`(run, type)` pair. -/
theorem agent_callback_artifacts (db : DbState) (s : String) (b : Json)
    (now : Nat) :
    (agent_callback db s b now).db.artifacts = db.artifacts ∨
    ∃ art : ArtifactRow,
      (agent_callback db s b now).db.artifacts = db.artifacts ++ [art] ∧
      art.version = _get_latest_version db art.run_id art.artifact_type + 1 := by
  unfold agent_callback Orchestrator._save_artifact
  try dsimp only []
  repeat' split
  all_goals
    first
      | exact Or.inl rfl
      | (rename maxByVersion _ = _ => hm
         exact Or.inr ⟨_, rfl, by simp [_get_latest_version, hm]⟩)

/-- If the polling phase found nothing, the latest stored version for the
watched `(run, type)` pair is the same after the wait as before it: the
at-most-one concurrent callback either touched another pair or would have
been picked up by the poll. -/
theorem wait_none_version (db7 : DbState) (rid ty : String)
    (env : Chat.PostStepEnv)
    (h : (Chat.post_step_wait db7 rid ty (_get_latest_version db7 rid ty)
        env).2 = none) :
    _get_latest_version
        (Chat.post_step_wait db7 rid ty (_get_latest_version db7 rid ty) env).1
        rid ty = _get_latest_version db7 rid ty := by
  unfold Chat.post_step_wait at h ⊢
  cases henv : env.duringWait with
  | none => simp only [henv]
  | some p =>
    obtain ⟨s, b⟩ := p
    simp only [henv] at h ⊢
    rcases agent_callback_artifacts db7 s b env.now with hsame | ⟨art, happ, hver⟩
    · unfold _get_latest_version artifactsFor
      rw [hsame]
    · obtain ⟨hc1, h2⟩ := wait_none_view _ _ _ _ _ h
      obtain ⟨hc2, -⟩ := wait_none_view _ _ _ _ _ h2
      by_cases hm : art.run_id = rid ∧ art.artifact_type = ty
      · exfalso
        have hmem : art ∈ artifactsFor (agent_callback db7 s b env.now).db
            rid ty := by
          rw [mem_artifactsFor]
          refine ⟨?_, hm.1, hm.2⟩
          rw [happ]
          exact List.mem_append_right _ (List.mem_singleton.mpr rfl)
        have hne : artifactsFor (agent_callback db7 s b env.now).db rid ty ≠ [] :=
          List.ne_nil_of_mem hmem
        obtain ⟨c, hc⟩ := Option.isSome_iff_exists.mp (maxByVersion_isSome hne)
        have hub := (maxByVersion_spec hc).2 art hmem
        rw [hm.1, hm.2] at hver
        exact hc2 c hc (by omega)
      · unfold _get_latest_version artifactsFor
        rw [happ, List.filter_append]
        have hnil : List.filter
            (fun a => a.run_id = rid && a.artifact_type = ty) [art] = [] := by
          simp [List.filter_singleton, hm]
        rw [hnil, List.append_nil]

/-- C1: wait-for-result protocol of the chat step endpoint.  (1) The polling
loop only ever returns an artifact whose version strictly exceeds the
baseline; (2) when the deadline elapses (snapshots exhausted) it returns
none; (3) on the triggering path the tail runs with baseline equal to the
latest stored version for the step's artifact type in the pre-trigger state;
(4) when the wait produced nothing and the trigger response embeds a result,
that result is persisted as a new artifact with version baseline+1; (5) when
neither the wait nor the fallback produced an artifact, the run moves to
TIMEOUT_STEP_n and the execution to TIMEOUT; (6) when an artifact was
obtained, the execution is closed as COMPLETED instead. -/
theorem c1_wait_protocol :
    (∀ (rid ty : String) (baseline : Nat) (views : List (List ArtifactRow))
        (a : ArtifactRow),
        Chat._wait_for_new_artifact rid ty baseline views = some a →
        baseline < a.version) ∧
    (∀ (rid ty : String) (baseline : Nat),
        Chat._wait_for_new_artifact rid ty baseline [] = none) ∧
    (∀ (db2 : DbState) (run : RunRow) (req : Chat.PostStepReq)
        (sd : PipelineStep) (ft : String) (cp resp : Json)
        (env : Chat.PostStepEnv),
        env.preDeadlineElapsed = false → env.trigger = .ok resp →
        ∃ (db7 : DbState) (call : TriggerCall),
          Chat.post_step_go db2 run req sd ft cp env =
            Chat.post_step_awaiting db7 run req sd db2.next_execution_id
              (_get_latest_version db2 run.id sd.artifact_type) resp call env ∧
          db7.artifacts = db2.artifacts) ∧
    (∀ (db7 : DbState) (rid ty : String) (eid : Nat) (env : Chat.PostStepEnv)
        (resp c : Json),
        (Chat.post_step_wait db7 rid ty (_get_latest_version db7 rid ty)
          env).2 = none →
        Chat._extract_artifact_from_trigger_response (some resp) = some c →
        (Chat.post_step_fallback
            (Chat.post_step_wait db7 rid ty (_get_latest_version db7 rid ty)
              env).1 rid ty eid none resp env.now).2 =
          some ⟨(Chat.post_step_wait db7 rid ty
                (_get_latest_version db7 rid ty) env).1.next_artifact_id,
              rid, ty, _get_latest_version db7 rid ty + 1, c.dumps,
              env.now⟩) ∧
    (∀ (db7 db8 db9 : DbState) (run : RunRow) (req : Chat.PostStepReq)
        (sd : PipelineStep) (eid baseline : Nat) (resp : Json)
        (call : TriggerCall) (env : Chat.PostStepEnv) (w : Option ArtifactRow),
        Chat.post_step_wait db7 run.id sd.artifact_type baseline env =
          (db8, w) →
        Chat.post_step_fallback db8 run.id sd.artifact_type eid w resp
          env.now = (db9, none) →
        (∀ r9, db9.findRun run.id = some r9 →
          (Chat.post_step_awaiting db7 run req sd eid baseline resp call
            env).db.findRun run.id = some
            { r9 with status := "TIMEOUT_STEP_" ++ toString req.step,
                      updated_at := env.now }) ∧
        (∀ e9, db9.findExecution eid = some e9 →
          (Chat.post_step_awaiting db7 run req sd eid baseline resp call
            env).db.findExecution eid = some
            { e9 with status := "TIMEOUT",
                      response_message := some (sd.name ++
                        ": sigue en procesamiento. Intenta consultar logs y artifacts en unos segundos."),
                      finished_at := some env.now })) ∧
    (∀ (db7 db8 db9 : DbState) (run : RunRow) (req : Chat.PostStepReq)
        (sd : PipelineStep) (eid baseline : Nat) (resp : Json)
        (call : TriggerCall) (env : Chat.PostStepEnv) (w : Option ArtifactRow)
        (artifact : ArtifactRow),
        Chat.post_step_wait db7 run.id sd.artifact_type baseline env =
          (db8, w) →
        Chat.post_step_fallback db8 run.id sd.artifact_type eid w resp
          env.now = (db9, some artifact) →
        ∀ e9, db9.findExecution eid = some e9 →
          (Chat.post_step_awaiting db7 run req sd eid baseline resp call
            env).db.findExecution eid = some
            { e9 with status := "COMPLETED",
                      response_message := some
                        (Chat._build_agent_message req.step artifact
                          (Chat._safe_json_loads artifact.content_json)),
                      finished_at := some env.now }) := by
  refine ⟨fun rid ty baseline => (wait_for_new_artifact_spec rid ty baseline).1,
    fun rid ty baseline => (wait_for_new_artifact_spec rid ty baseline).2,
    ?_, ?_, ?_, ?_⟩
  · intro db2 run req sd ft cp resp env hd htr
    unfold Chat.post_step_go
    try dsimp only []
    simp only [hd, htr, Bool.false_eq_true, if_false]
    exact ⟨_, _, rfl, rfl⟩
  · intro db7 rid ty eid env resp c hw hx
    have h5 := (post_step_fallback_spec
      (Chat.post_step_wait db7 rid ty (_get_latest_version db7 rid ty) env).1
      rid ty eid resp c env.now hx).1
    have hv := wait_none_version db7 rid ty env hw
    rw [hv] at h5
    exact h5
  · intro db7 db8 db9 run req sd eid baseline resp call env w hw hfb
    have h := post_step_awaiting_none db7 db8 db9 run req sd eid baseline resp
      call env w hw hfb
    exact ⟨h.2.2.1, h.2.2.2.1⟩
  · intro db7 db8 db9 run req sd eid baseline resp call env w artifact hw hfb
    have h := post_step_awaiting_some db7 db8 db9 run req sd eid baseline resp
      call env w artifact hw hfb
    exact h.2.2.2.1

theorem c1_wait_protocol_witness :
    (Chat._wait_for_new_artifact "rw1" "requirements" 0 [[artW]] = some artW ∧
      0 < artW.version) ∧
    (envW.preDeadlineElapsed = false ∧ envW.trigger = .ok respW ∧
      ∃ (db7 : DbState) (call : TriggerCall),
        Chat.post_step_go DbState.init runS reqW stepReq "" (.str "hola")
            envW =
          Chat.post_step_awaiting db7 runS reqW stepReq
            DbState.init.next_execution_id
            (_get_latest_version DbState.init runS.id stepReq.artifact_type)
            respW call envW ∧
        db7.artifacts = DbState.init.artifacts) ∧
    ((Chat.post_step_wait DbState.init "rw1" "requirements"
        (_get_latest_version DbState.init "rw1" "requirements") envW).2 =
        none ∧
      Chat._extract_artifact_from_trigger_response (some respW) =
        some extractedW ∧
      (Chat.post_step_fallback
          (Chat.post_step_wait DbState.init "rw1" "requirements"
            (_get_latest_version DbState.init "rw1" "requirements") envW).1
          "rw1" "requirements" 1 none respW envW.now).2 =
        some ⟨(Chat.post_step_wait DbState.init "rw1" "requirements"
              (_get_latest_version DbState.init "rw1" "requirements")
              envW).1.next_artifact_id,
          "rw1", "requirements",
          _get_latest_version DbState.init "rw1" "requirements" + 1,
          extractedW.dumps, envW.now⟩) := by
  refine ⟨⟨by decide, ?_⟩, ⟨by decide, rfl, ?_⟩, ⟨by decide, by decide, ?_⟩⟩
  · exact c1_wait_protocol.1 "rw1" "requirements" 0 [[artW]] artW (by decide)
  · exact c1_wait_protocol.2.2.1 DbState.init runS reqW stepReq "" (.str "hola")
      respW envW (by decide) rfl
  · exact c1_wait_protocol.2.2.2.1 DbState.init "rw1" "requirements" 1 envW
      respW extractedW (by decide) (by decide)
